import Mathlib

/-
Verification of the key-management and encryption core of the messaging
application (src/lib/crypto.ts, src/lib/conversation-crypto.ts,
src/lib/secure-storage.ts).

Modelling conventions:
- JavaScript byte arrays (Uint8Array, Buffer) and strings are both modelled
  as `List Nat`: a string is its sequence of UTF-8 code units, which is what
  libsodium hashes/encrypts when handed a JS string.  `Bytes` and `Str` are
  two names for the same type, kept separate for readability.
- libsodium primitives are not part of this repository; they are modelled by
  the `SodiumModel` structure below, whose fields carry the primitives and
  whose law fields state libsodium's documented contracts (authenticated
  encryption, collision-free key derivation), idealized in the usual
  symbolic (Dolev-Yao) way: computationally negligible events - forging an
  authentication tag, colliding BLAKE2b/Argon2id outputs - are treated as
  impossible.  Every theorem is proved for an arbitrary model satisfying
  these laws; a concrete computable instance (`IdealSodium`) witnesses that the
  laws are consistent and lets closed corollaries evaluate.
- Randomness (salts, nonces, ephemeral keys) is passed to each function as
  an explicit argument, as drawn by `sodium.randombytes_buf` at that call
  site in the source.
- Failure (a JS `throw`) is modelled with `Except CryptoError`.
-/

/-- Byte sequences (JS Uint8Array / Buffer contents). -/
abbrev Bytes := List Nat

/-- JS strings, as their sequences of UTF-8 code units. -/
abbrev Str := List Nat

/-- The errors thrown by the crypto core.  `decryptionFailed` is the single
generic error libsodium throws on any authentication-tag mismatch (wrong
key and corrupted data are indistinguishable); `badEncoding` is the error
`sodium.from_base64` throws on a malformed base64 string;
`conversationNotFound` and `invalidInput` are thrown explicitly by the
repository code. -/
inductive CryptoError where
  | invalidInput
  | badEncoding
  | decryptionFailed
  | conversationNotFound
deriving DecidableEq, Repr

/- ---------------------------------------------------------------------
An injective, computable encoding of `List Nat` into `Nat`, used only to
build the concrete `Ideal` libsodium instance.  `lval B l` reads `l` as
digits (each shifted by one) in base `B`; `encAny` pairs the base with the
value so that the encoding is injective on all lists.
--------------------------------------------------------------------- -/

/-- The value of `l` read as base-`B` digits, each digit stored as `a + 1`. -/
def lval (B : Nat) (l : List Nat) : Nat :=
  l.foldl (fun acc a => acc * B + (a + 1)) 0

/-- The maximum element of a list of naturals (0 for the empty list). -/
def lmax (l : List Nat) : Nat :=
  l.foldr (fun a m => max a m) 0

/-- Injective encoding of an arbitrary list of naturals into one natural. -/
def encAny (l : List Nat) : Nat :=
  Nat.pair (lmax l + 2) (lval (lmax l + 2) l)

theorem lval_append (B : Nat) (l : List Nat) (a : Nat) :
    lval B (l ++ [a]) = lval B l * B + (a + 1) := by
  simp [lval, List.foldl_append]

theorem le_lmax {a : Nat} {l : List Nat} (h : a ∈ l) : a ≤ lmax l := by
  induction l with
  | nil => cases h
  | cons b t ih =>
    rcases List.mem_cons.mp h with rfl | hm
    · exact le_max_left _ _
    · exact le_trans (ih hm) (le_max_right _ _)

theorem lval_inj (B : Nat) (hB : 2 ≤ B) :
    ∀ l₁ l₂ : List Nat, (∀ a ∈ l₁, a + 1 < B) → (∀ a ∈ l₂, a + 1 < B) →
      lval B l₁ = lval B l₂ → l₁ = l₂ := by
  intro l₁
  induction l₁ using List.reverseRecOn with
  | nil =>
    intro l₂ _ h₂ heq
    induction l₂ using List.reverseRecOn with
    | nil => rfl
    | append_singleton t a _ =>
      rw [lval_append] at heq
      simp only [lval] at heq
      exact absurd heq.symm (Nat.add_pos_right _ (Nat.succ_pos a)).ne'
  | append_singleton t₁ a₁ ih =>
    intro l₂ h₁ h₂ heq
    induction l₂ using List.reverseRecOn with
    | nil =>
      rw [lval_append] at heq
      simp only [lval] at heq
      exact absurd heq (Nat.add_pos_right _ (Nat.succ_pos a₁)).ne'
    | append_singleton t₂ a₂ _ =>
      rw [lval_append, lval_append] at heq
      rw [Nat.mul_comm (lval B t₁) B, Nat.mul_comm (lval B t₂) B] at heq
      have ha₁ : a₁ + 1 < B := h₁ a₁ (by simp)
      have ha₂ : a₂ + 1 < B := h₂ a₂ (by simp)
      have hmod : (B * lval B t₁ + (a₁ + 1)) % B = (B * lval B t₂ + (a₂ + 1)) % B := by
        rw [heq]
      rw [Nat.mul_add_mod, Nat.mul_add_mod] at hmod
      rw [Nat.mod_eq_of_lt ha₁, Nat.mod_eq_of_lt ha₂] at hmod
      have ha : a₁ = a₂ := by omega
      subst ha
      have hv : lval B t₁ = lval B t₂ := by
        have hBpos : 0 < B := by omega
        have h' : B * lval B t₁ = B * lval B t₂ := by omega
        exact Nat.eq_of_mul_eq_mul_left hBpos h'
      have ht : t₁ = t₂ :=
        ih t₂ (fun a ha => h₁ a (List.mem_append_left _ ha))
          (fun a ha => h₂ a (List.mem_append_left _ ha)) hv
      rw [ht]

theorem encAny_inj : Function.Injective encAny := by
  intro l₁ l₂ h
  unfold encAny at h
  have h' := Nat.pair_eq_pair.mp h
  have hB : lmax l₁ + 2 = lmax l₂ + 2 := h'.1
  have hv : lval (lmax l₁ + 2) l₁ = lval (lmax l₂ + 2) l₂ := h'.2
  rw [← hB] at hv
  exact lval_inj (lmax l₁ + 2) (by omega) l₁ l₂
    (fun a ha => by have := le_lmax ha; omega)
    (fun a ha => by have := le_lmax ha; rw [← hB] at *; omega) hv

/- ---------------------------------------------------------------------
The libsodium interface.  Fields mirror the primitives the repository
calls; law fields state libsodium's documented guarantees, idealized
symbolically (tag forgery and hash/KDF collisions treated as impossible).
The repository only ever asks for 32-byte hash/KDF outputs, so the
collision-freedom laws are stated at output length 32.
--------------------------------------------------------------------- -/

/-- A model of the libsodium primitives used by the repository.
`to_base64`/`from_base64` are sodium's URL-safe unpadded base64 codec;
`secretbox_easy`/`secretbox_open_easy` are XSalsa20-Poly1305 secret-key
authenticated encryption (the ciphertext carries a 16-byte tag);
`box_easy`/`box_open_easy` are Curve25519 public-key authenticated
encryption and `box_pk` maps a secret key to its public key
(`crypto_box_keypair` / `crypto_scalarmult_base`); `generichash` is
BLAKE2b; `pwhash` is Argon2id keyed by (password, salt). -/
structure SodiumModel where
  to_base64 : Bytes → Str
  from_base64 : Str → Option Bytes
  secretbox_easy : Bytes → Bytes → Bytes → Bytes
  secretbox_open_easy : Bytes → Bytes → Bytes → Option Bytes
  box_pk : Bytes → Bytes
  box_easy : Bytes → Bytes → Bytes → Bytes → Bytes
  box_open_easy : Bytes → Bytes → Bytes → Bytes → Option Bytes
  generichash : Nat → Bytes → Bytes
  pwhash : Nat → Str → Bytes → Bytes
  /-- Decoding inverts encoding (sodium's codec is a bijection onto
  canonical base64 strings). -/
  b64_roundtrip : ∀ l, from_base64 (to_base64 l) = some l
  /-- The encoding of a non-empty byte sequence is a non-empty string. -/
  b64_ne_nil : ∀ l, l ≠ [] → to_base64 l ≠ []
  /-- `crypto_secretbox_easy` prepends a 16-byte Poly1305 tag:
  ciphertext length is plaintext length + `crypto_secretbox_MACBYTES`. -/
  secretbox_length : ∀ m n k, (secretbox_easy m n k).length = m.length + 16
  /-- Decryption succeeds on a genuine ciphertext with the right
  24-byte nonce and 32-byte key and yields the original plaintext. -/
  secretbox_open_valid : ∀ m n k, n.length = 24 → k.length = 32 →
    secretbox_open_easy (secretbox_easy m n k) n k = some m
  /-- Authentication: decryption only ever succeeds on the genuine
  ciphertext produced under the same nonce and key (tag forgery is
  impossible in the symbolic model). -/
  secretbox_open_auth : ∀ c n k m, secretbox_open_easy c n k = some m →
    c = secretbox_easy m n k
  /-- The ciphertext binds plaintext, nonce and key (joint injectivity). -/
  secretbox_inj : ∀ m m' n n' k k',
    secretbox_easy m n k = secretbox_easy m' n' k' → m = m' ∧ n = n' ∧ k = k'
  /-- Overwriting any single byte of a genuine ciphertext never produces
  a ciphertext genuine for a different plaintext under the same nonce and
  key: the tag authenticates every byte. -/
  secretbox_flip_reject : ∀ m m' n k i v, m ≠ m' →
    (secretbox_easy m n k).set i v ≠ secretbox_easy m' n k
  /-- Curve25519 public keys are 32 bytes. -/
  box_pk_length : ∀ sk, (box_pk sk).length = 32
  /-- `crypto_box` round-trip: the recipient, using their secret key and
  the sender's public key, recovers what was sealed to their public key. -/
  box_roundtrip : ∀ m n skE skR, n.length = 24 →
    box_open_easy (box_easy m n (box_pk skR) skE) n (box_pk skE) skR = some m
  /-- BLAKE2b at 32-byte output: output length. -/
  generichash_length : ∀ x, (generichash 32 x).length = 32
  /-- BLAKE2b at 32-byte output: collision-free in the symbolic model. -/
  generichash_inj : ∀ x y, generichash 32 x = generichash 32 y → x = y
  /-- Argon2id at 32-byte output: output length. -/
  pwhash_length : ∀ p s, (pwhash 32 p s).length = 32
  /-- Argon2id at 32-byte output: collision-free in (password, salt) in
  the symbolic model. -/
  pwhash_inj : ∀ p p' s s', pwhash 32 p s = pwhash 32 p' s' → p = p' ∧ s = s'

/-- `sodium.from_base64` lifted to `Except`: throws on malformed input. -/
def from_base64E (S : SodiumModel) (s : Str) : Except CryptoError Bytes :=
  match S.from_base64 s with
  | some b => .ok b
  | none => .error .badEncoding

/-- `sodium.crypto_secretbox_open_easy` lifted to `Except`: throws the
single generic decryption-failure error on tag mismatch. -/
def openE (S : SodiumModel) (c n k : Bytes) : Except CryptoError Bytes :=
  match S.secretbox_open_easy c n k with
  | some m => .ok m
  | none => .error .decryptionFailed

/-- `sodium.crypto_box_open_easy` lifted to `Except`. -/
def boxOpenE (S : SodiumModel) (c n pk sk : Bytes) : Except CryptoError Bytes :=
  match S.box_open_easy c n pk sk with
  | some m => .ok m
  | none => .error .decryptionFailed

theorem from_base64E_to_base64 (S : SodiumModel) (l : Bytes) :
    from_base64E S (S.to_base64 l) = .ok l := by
  simp [from_base64E, S.b64_roundtrip]

theorem to_base64_inj (S : SodiumModel) {l₁ l₂ : Bytes}
    (h : S.to_base64 l₁ = S.to_base64 l₂) : l₁ = l₂ := by
  have h₁ := S.b64_roundtrip l₁
  have h₂ := S.b64_roundtrip l₂
  rw [h, h₂] at h₁
  exact Option.some_injective _ h₁.symm

/- ---------------------------------------------------------------------
src/lib/crypto.ts
--------------------------------------------------------------------- -/

/-- A user's identity keypair, both halves base64-encoded
(src/lib/crypto.ts, interface KeyPair). -/
structure KeyPair where
  publicKey : Str
  privateKey : Str
deriving DecidableEq, Repr

/-- A message ciphertext with its nonce, both base64-encoded
(src/lib/crypto.ts, interface EncryptedData). -/
structure EncryptedData where
  ciphertext : Str
  nonce : Str
deriving DecidableEq, Repr

/-- src/lib/crypto.ts `generateKeyPair`: `sodium.crypto_box_keypair()`
draws a random secret key `sk` (passed explicitly here) and returns both
halves base64-encoded. -/
def generateKeyPair (S : SodiumModel) (sk : Bytes) : KeyPair :=
  { publicKey := S.to_base64 (S.box_pk sk)
    privateKey := S.to_base64 sk }

/-- src/lib/crypto.ts `encryptPrivateKey`: rejects empty inputs, derives a
32-byte key from the password with `crypto_pwhash` (SALTBYTES = 16,
KEYBYTES = 32, NONCEBYTES = 24; the `crypto_pwhash` branch is the one
taken, since libsodium-wrappers provides `crypto_pwhash`), seals the
decoded private key with `crypto_secretbox_easy`, and returns
`to_base64(salt || nonce || ciphertext)`.  `salt` and `nonce` are the two
`randombytes_buf` draws, passed explicitly. -/
def encryptPrivateKey (S : SodiumModel) (privateKey password : Str)
    (salt nonce : Bytes) : Except CryptoError Str :=
  if privateKey = [] ∨ password = [] then .error .invalidInput
  else do
    let key := S.pwhash 32 password salt
    let privateKeyBytes ← from_base64E S privateKey
    let ciphertext := S.secretbox_easy privateKeyBytes nonce key
    pure (S.to_base64 (salt ++ nonce ++ ciphertext))

/-- src/lib/crypto.ts `decryptPrivateKey`: decodes the blob, splits it as
`salt = [0,16) , nonce = [16,40) , ciphertext = [40,..)`, re-derives the
key with `crypto_pwhash`, and opens with `crypto_secretbox_open_easy`. -/
def decryptPrivateKey (S : SodiumModel) (encryptedPrivateKey password : Str) :
    Except CryptoError Str := do
  let encrypted ← from_base64E S encryptedPrivateKey
  let salt := encrypted.take 16
  let nonce := (encrypted.drop 16).take 24
  let ciphertext := encrypted.drop 40
  let key := S.pwhash 32 password salt
  let decrypted ← openE S ciphertext nonce key
  pure (S.to_base64 decrypted)

/-- src/lib/crypto.ts `encryptSymmetricKey`: generates an ephemeral
keypair (secret half `esk`, drawn by `crypto_box_keypair`) and a random
`nonce`, seals the symmetric key to the recipient's public key with
`crypto_box_easy`, and returns
`to_base64(ephemeralPublicKey || nonce || ciphertext)`. -/
def encryptSymmetricKey (S : SodiumModel) (symmetricKey recipientPublicKey : Str)
    (esk nonce : Bytes) : Except CryptoError Str := do
  let ephemeralPublicKey := S.box_pk esk
  let symmetricKeyBytes ← from_base64E S symmetricKey
  let recipientPublicKeyBytes ← from_base64E S recipientPublicKey
  let ciphertext := S.box_easy symmetricKeyBytes nonce recipientPublicKeyBytes esk
  pure (S.to_base64 (ephemeralPublicKey ++ nonce ++ ciphertext))

/-- src/lib/crypto.ts `decryptSymmetricKey`: decodes the blob, splits it
as `ephemeralPublicKey = [0,32) , nonce = [32,56) , ciphertext = [56,..)`,
and opens with `crypto_box_open_easy` under the user's private key. -/
def decryptSymmetricKey (S : SodiumModel) (encryptedSymmetricKey privateKey : Str) :
    Except CryptoError Str := do
  let encrypted ← from_base64E S encryptedSymmetricKey
  let ephemeralPublicKey := encrypted.take 32
  let nonce := (encrypted.drop 32).take 24
  let ciphertext := encrypted.drop 56
  let privateKeyBytes ← from_base64E S privateKey
  let decrypted ← boxOpenE S ciphertext nonce ephemeralPublicKey privateKeyBytes
  pure (S.to_base64 decrypted)

/-- src/lib/crypto.ts `encryptMessage`: draws a random 24-byte `nonce`
(passed explicitly), seals the UTF-8 bytes of the message with
`crypto_secretbox_easy` under the decoded symmetric key, and returns the
ciphertext and nonce base64-encoded. -/
def encryptMessage (S : SodiumModel) (message symmetricKey : Str)
    (nonce : Bytes) : Except CryptoError EncryptedData := do
  let symmetricKeyBytes ← from_base64E S symmetricKey
  let ciphertext := S.secretbox_easy message nonce symmetricKeyBytes
  pure { ciphertext := S.to_base64 ciphertext, nonce := S.to_base64 nonce }

/-- src/lib/crypto.ts `decryptMessage`: decodes ciphertext, nonce and key
and opens with `crypto_secretbox_open_easy`. -/
def decryptMessage (S : SodiumModel) (encryptedData : EncryptedData)
    (symmetricKey : Str) : Except CryptoError Str := do
  let ciphertext ← from_base64E S encryptedData.ciphertext
  let nonce ← from_base64E S encryptedData.nonce
  let symmetricKeyBytes ← from_base64E S symmetricKey
  let decrypted ← openE S ciphertext nonce symmetricKeyBytes
  pure decrypted

/-- src/lib/crypto.ts `combineCiphertextAndNonce`: decodes both parts and
returns `to_base64(nonce || ciphertext)` for storage. -/
def combineCiphertextAndNonce (S : SodiumModel) (ciphertext nonce : Str) :
    Except CryptoError Str := do
  let c ← from_base64E S ciphertext
  let n ← from_base64E S nonce
  pure (S.to_base64 (n ++ c))

/-- src/lib/crypto.ts `separateCiphertextAndNonce`: decodes the stored
blob and splits it as `nonce = [0,24) , ciphertext = [24,..)`. -/
def separateCiphertextAndNonce (S : SodiumModel) (combined : Str) :
    Except CryptoError EncryptedData := do
  let data ← from_base64E S combined
  let nonce := data.take 24
  let ciphertext := data.drop 24
  pure { ciphertext := S.to_base64 ciphertext, nonce := S.to_base64 nonce }

/- ---------------------------------------------------------------------
src/lib/conversation-crypto.ts, with its Prisma collaborators modelled as
association lists (rows are created, never updated or deleted, matching
the observed usage; the uniqueness constraint on
`conversationSalt.conversationId` is what raises Prisma error P2002).
--------------------------------------------------------------------- -/

/-- A conversation participant row joined with its user (`p.user.email`). -/
structure Participant where
  email : Str
deriving DecidableEq, Repr

/-- A conversation row with its included participants. -/
structure Conversation where
  participants : List Participant
deriving DecidableEq, Repr

/-- The two Prisma tables the module touches: `conversation` rows keyed by
id, and `conversationSalt` rows keyed by conversation id holding the
base64-encoded salt. -/
structure PrismaDB where
  conversations : List (Str × Conversation)
  conversationSalts : List (Str × Str)
deriving DecidableEq, Repr

/-- `prisma.<table>.findUnique({ where: { id } })` on an association list. -/
def dbLookup {α : Type} : List (Str × α) → Str → Option α
  | [], _ => none
  | (k, v) :: t, c => if k = c then some v else dbLookup t c

/-- JS `<` on strings: lexicographic comparison of code-unit sequences. -/
def lexLe : Str → Str → Bool
  | [], _ => true
  | _ :: _, [] => false
  | a :: x, b :: y => if a < b then true else if b < a then false else lexLe x y

/-- One insertion step of `Array.prototype.sort`'s effect. -/
def insertSorted (e : Str) : List Str → List Str
  | [] => [e]
  | x :: t => if lexLe e x then e :: x :: t else x :: insertSorted e t

/-- JS `participantEmails.sort()`: sorts strings lexicographically. -/
def sortStrings : List Str → List Str
  | [] => []
  | x :: t => insertSorted x (sortStrings t)

/-- JS `participantEmails.join(':')`. -/
def joinColon : List Str → Str
  | [] => []
  | [e] => e
  | e :: t => e ++ 58 :: joinColon t

/-- src/lib/conversation-crypto.ts `getConversationSalt`: read the salt
row; if absent, generate a fresh 32-byte salt (`fresh`, the
`randombytes_buf(32)` draw) and try to insert it; if the insert hits the
uniqueness constraint (Prisma error P2002) because a concurrent caller
inserted first, re-read and return the stored salt.  `salts0` is the
table at the first read and `salts1` the table at the insert/re-read (a
concurrent writer may have inserted between the two; rows are never
deleted, so the row seen by the conflicting insert is still there at the
re-read).  Returns the salt bytes and the table after the call. -/
def getConversationSalt (S : SodiumModel) (salts0 salts1 : List (Str × Str))
    (conversationId : Str) (fresh : Bytes) :
    Except CryptoError (Bytes × List (Str × Str)) :=
  match dbLookup salts0 conversationId with
  | some existingSalt => do
      let saltBytes ← from_base64E S existingSalt
      pure (saltBytes, salts1)
  | none =>
    match dbLookup salts1 conversationId with
    | none => pure (fresh, salts1 ++ [(conversationId, S.to_base64 fresh)])
    | some existingSalt => do
        let saltBytes ← from_base64E S existingSalt
        pure (saltBytes, salts1)

/-- src/lib/conversation-crypto.ts `deriveConversationKey`: look up the
conversation with its participants (throwing if absent), build the seed
`conversationId ++ ":" ++ sortedParticipantEmails.join(":")` (58 is the
code unit of `:`), fetch-or-create the conversation salt, and return the
32-byte `crypto_generichash` of `seed ++ to_base64(salt)`.  The
`userEmail` parameter is accepted and never used, exactly as in the
source. -/
def deriveConversationKey (S : SodiumModel) (db : PrismaDB)
    (conversationId userEmail : Str) (fresh : Bytes) :
    Except CryptoError (Bytes × PrismaDB) :=
  match dbLookup db.conversations conversationId with
  | none => .error .conversationNotFound
  | some conversation => do
      let participantEmails :=
        sortStrings (conversation.participants.map (fun p => p.email))
      let seed := conversationId ++ 58 :: joinColon participantEmails
      let r ← getConversationSalt S db.conversationSalts db.conversationSalts
        conversationId fresh
      let derivedKey := S.generichash 32 (seed ++ S.to_base64 r.1)
      pure (derivedKey, { db with conversationSalts := r.2 })

/-- src/lib/conversation-crypto.ts `encryptBuffer`: draw a random 24-byte
nonce (explicit here) and store `nonce || crypto_secretbox_easy(...)`. -/
def encryptBuffer (S : SodiumModel) (buffer key nonce : Bytes) : Bytes :=
  nonce ++ S.secretbox_easy buffer nonce key

/-- src/lib/conversation-crypto.ts `decryptBuffer`: split the stored
envelope as `nonce = [0,24) , ciphertext = [24,..)` and open it, throwing
the generic decryption failure on tag mismatch. -/
def decryptBuffer (S : SodiumModel) (encryptedBuffer key : Bytes) :
    Except CryptoError Bytes :=
  let nonce := encryptedBuffer.take 24
  let ciphertext := encryptedBuffer.drop 24
  match S.secretbox_open_easy ciphertext nonce key with
  | some decrypted => .ok decrypted
  | none => .error .decryptionFailed

/-- src/lib/conversation-crypto.ts `encryptMedia`: derive the conversation
key, then encrypt the buffer with it. -/
def encryptMedia (S : SodiumModel) (db : PrismaDB) (buffer : Bytes)
    (conversationId userEmail : Str) (fresh nonce : Bytes) :
    Except CryptoError (Bytes × PrismaDB) := do
  let r ← deriveConversationKey S db conversationId userEmail fresh
  pure (encryptBuffer S buffer r.1 nonce, r.2)

/-- src/lib/conversation-crypto.ts `decryptMedia`: derive the conversation
key, then decrypt the buffer with it. -/
def decryptMedia (S : SodiumModel) (db : PrismaDB) (encryptedBuffer : Bytes)
    (conversationId userEmail : Str) (fresh : Bytes) :
    Except CryptoError (Bytes × PrismaDB) := do
  let r ← deriveConversationKey S db conversationId userEmail fresh
  let decrypted ← decryptBuffer S encryptedBuffer r.1
  pure (decrypted, r.2)

/- ---------------------------------------------------------------------
src/lib/secure-storage.ts.  `sessionStorage.getItem`/`localStorage.getItem`
results are passed in as `Option Str` (null when no blob is stored).  Both
`retrievePrivateKey` implementations wrap their whole body in
`try { ... } catch { return null }`, so every internal failure (malformed
base64, wrong password, corrupted blob) collapses to `none`.
--------------------------------------------------------------------- -/

namespace WebCryptoSecureStorage

/-- src/lib/secure-storage.ts `WebCryptoSecureStorage.storePrivateKey`:
derive a key from the password with `crypto_pwhash` over a random 32-byte
`salt`, seal the decoded private key under a random 12-byte `iv`, and
store `to_base64(salt || iv || encrypted)` (plus the salt separately).
Returns the two stored values `(STORAGE_KEY, SALT_KEY)`. -/
def storePrivateKey (S : SodiumModel) (key password : Str) (salt iv : Bytes) :
    Except CryptoError (Str × Str) := do
  let derivedKey := S.pwhash 32 password salt
  let keyBytes ← from_base64E S key
  let encrypted := S.secretbox_easy keyBytes iv derivedKey
  pure (S.to_base64 (salt ++ iv ++ encrypted), S.to_base64 salt)

/-- src/lib/secure-storage.ts `WebCryptoSecureStorage.retrievePrivateKey`:
returns null if nothing is stored; otherwise decodes the blob, splits it
as `salt = [0,32) , iv = [32,44) , encrypted = [44,..)`, re-derives the
key and opens.  The surrounding `try/catch` turns every failure into
null. -/
def retrievePrivateKey (S : SodiumModel) (stored : Option Str)
    (password : Str) : Option Str :=
  match stored with
  | none => none
  | some encryptedData =>
    match (do
      let combined ← from_base64E S encryptedData
      let salt := combined.take 32
      let iv := (combined.drop 32).take 12
      let encrypted := combined.drop 44
      let derivedKey := S.pwhash 32 password salt
      let decrypted ← openE S encrypted iv derivedKey
      pure (S.to_base64 decrypted) : Except CryptoError Str) with
    | .ok r => some r
    | .error _ => none

end WebCryptoSecureStorage

namespace FallbackSecureStorage

/-- src/lib/secure-storage.ts `FallbackSecureStorage.storePrivateKey`:
derive a key from the password over a random 32-byte `salt`, seal the
decoded private key using that same salt as the nonce (as the source
does), and store `to_base64(salt || encrypted)`. -/
def storePrivateKey (S : SodiumModel) (key password : Str) (salt : Bytes) :
    Except CryptoError Str := do
  let derivedKey := S.pwhash 32 password salt
  let keyBytes ← from_base64E S key
  let encrypted := S.secretbox_easy keyBytes salt derivedKey
  pure (S.to_base64 (salt ++ encrypted))

/-- src/lib/secure-storage.ts `FallbackSecureStorage.retrievePrivateKey`:
returns null if nothing is stored; otherwise decodes the blob, splits it
as `salt = [0,32) , encrypted = [32,..)`, re-derives the key and opens
with the salt as nonce.  The surrounding `try/catch` turns every failure
into null. -/
def retrievePrivateKey (S : SodiumModel) (stored : Option Str)
    (password : Str) : Option Str :=
  match stored with
  | none => none
  | some encryptedData =>
    match (do
      let combined ← from_base64E S encryptedData
      let salt := combined.take 32
      let encrypted := combined.drop 32
      let derivedKey := S.pwhash 32 password salt
      let decrypted ← openE S encrypted salt derivedKey
      pure (S.to_base64 decrypted) : Except CryptoError Str) with
    | .ok r => some r
    | .error _ => none

end FallbackSecureStorage

/- ---------------------------------------------------------------------
A concrete, computable libsodium model.  Ciphertexts carry a symbolic
16-entry tag whose first entry injectively encodes (plaintext, nonce, key),
so authentication is perfect; hash and KDF outputs injectively encode
their inputs in the first of their 32 entries.  This instance shows the
`SodiumModel` laws are consistent and lets closed corollaries evaluate.
--------------------------------------------------------------------- -/

/-- The symbolic Poly1305 tag: injectively encodes plaintext, nonce, key. -/
def idealTag (m n k : Bytes) : Nat :=
  Nat.pair (Nat.pair (encAny m) (encAny n)) (encAny k)

/-- Symbolic `crypto_secretbox_easy`: 16-entry tag, then the plaintext. -/
def idealSecretboxEasy (m n k : Bytes) : Bytes :=
  idealTag m n k :: (List.replicate 15 0 ++ m)

/-- Symbolic `crypto_secretbox_open_easy`: checks nonce/key lengths as
libsodium does, then recomputes the tag over the carried plaintext. -/
def idealSecretboxOpen (c n k : Bytes) : Option Bytes :=
  if n.length = 24 ∧ k.length = 32 then
    if c = idealSecretboxEasy (c.drop 16) n k then some (c.drop 16) else none
  else none

/-- Symbolic Curve25519 public key of a secret key. -/
def idealPk (sk : Bytes) : Bytes :=
  encAny sk :: List.replicate 31 0

/-- Symbolic Diffie-Hellman shared secret of two public keys (symmetric in
its arguments, as `crypto_box`'s key exchange is). -/
def sharedOf (p q : Bytes) : Nat :=
  Nat.pair (min (encAny p) (encAny q)) (max (encAny p) (encAny q))

/-- Symbolic `crypto_box_easy`: tag encodes plaintext, nonce and the
shared secret of the recipient's public key and the sender's keypair. -/
def idealBoxEasy (m n pk sk : Bytes) : Bytes :=
  Nat.pair (Nat.pair (encAny m) (encAny n)) (sharedOf pk (idealPk sk)) ::
    (List.replicate 15 0 ++ m)

/-- Symbolic `crypto_box_open_easy`: recomputes the tag using the
recipient's own keypair and the sender's public key. -/
def idealBoxOpen (c n pk sk : Bytes) : Option Bytes :=
  if c = Nat.pair (Nat.pair (encAny (c.drop 16)) (encAny n))
      (sharedOf (idealPk sk) pk) :: (List.replicate 15 0 ++ c.drop 16)
  then some (c.drop 16) else none

theorem idealTag_inj {m m' n n' k k' : Bytes}
    (h : idealTag m n k = idealTag m' n' k') : m = m' ∧ n = n' ∧ k = k' := by
  unfold idealTag at h
  have h₁ := Nat.pair_eq_pair.mp h
  have h₂ := Nat.pair_eq_pair.mp h₁.1
  exact ⟨encAny_inj h₂.1, encAny_inj h₂.2, encAny_inj h₁.2⟩

theorem idealSecretboxEasy_drop (m n k : Bytes) :
    (idealSecretboxEasy m n k).drop 16 = m := by
  show (List.replicate 15 0 ++ m).drop 15 = m
  rw [List.drop_left' (List.length_replicate 15 0)]

theorem idealSecretboxOpen_valid (m n k : Bytes) (hn : n.length = 24)
    (hk : k.length = 32) : idealSecretboxOpen (idealSecretboxEasy m n k) n k = some m := by
  unfold idealSecretboxOpen
  rw [if_pos ⟨hn, hk⟩, idealSecretboxEasy_drop, if_pos rfl]

theorem idealSecretboxOpen_auth (c n k m : Bytes)
    (h : idealSecretboxOpen c n k = some m) : c = idealSecretboxEasy m n k := by
  unfold idealSecretboxOpen at h
  split at h
  · split at h
    · next heq => cases h; exact heq
    · cases h
  · cases h

theorem idealSecretbox_inj (m m' n n' k k' : Bytes)
    (h : idealSecretboxEasy m n k = idealSecretboxEasy m' n' k') :
    m = m' ∧ n = n' ∧ k = k' := by
  unfold idealSecretboxEasy at h
  exact idealTag_inj (List.head_eq_of_cons_eq h)

theorem idealSecretbox_flip_reject (m m' n k : Bytes) (i : Nat) (v : Nat)
    (hm : m ≠ m') : (idealSecretboxEasy m n k).set i v ≠ idealSecretboxEasy m' n k := by
  intro h
  unfold idealSecretboxEasy at h
  cases i with
  | zero =>
    rw [List.set_cons_zero] at h
    exact hm (List.append_cancel_left (List.tail_eq_of_cons_eq h))
  | succ j =>
    rw [List.set_cons_succ] at h
    exact hm (idealTag_inj (List.head_eq_of_cons_eq h)).1

theorem idealBoxOpen_valid (m n skE skR : Bytes) :
    idealBoxOpen (idealBoxEasy m n (idealPk skR) skE) n (idealPk skE) skR = some m := by
  unfold idealBoxOpen idealBoxEasy
  have hd : (Nat.pair (Nat.pair (encAny m) (encAny n))
      (sharedOf (idealPk skR) (idealPk skE)) ::
      (List.replicate 15 0 ++ m)).drop 16 = m := by
    show (List.replicate 15 0 ++ m).drop 15 = m
    rw [List.drop_left' (List.length_replicate 15 0)]
  rw [hd, if_pos rfl]

/-- The concrete libsodium model. -/
def IdealSodium : SodiumModel where
  to_base64 := fun l => 0 :: l
  from_base64 := fun s => match s with
    | 0 :: t => some t
    | _ => none
  secretbox_easy := idealSecretboxEasy
  secretbox_open_easy := idealSecretboxOpen
  box_pk := idealPk
  box_easy := idealBoxEasy
  box_open_easy := idealBoxOpen
  generichash := fun outlen x => encAny x :: List.replicate (outlen - 1) 0
  pwhash := fun outlen p s =>
    Nat.pair (encAny p) (encAny s) :: List.replicate (outlen - 1) 0
  b64_roundtrip := fun _ => rfl
  b64_ne_nil := fun _ _ => List.cons_ne_nil _ _
  secretbox_length := fun m n k => by
    simp [idealSecretboxEasy]
  secretbox_open_valid := fun m n k hn hk => idealSecretboxOpen_valid m n k hn hk
  secretbox_open_auth := idealSecretboxOpen_auth
  secretbox_inj := idealSecretbox_inj
  secretbox_flip_reject := fun m m' n k i v hm =>
    idealSecretbox_flip_reject m m' n k i v hm
  box_pk_length := fun sk => by simp [idealPk]
  box_roundtrip := fun m n skE skR _ => idealBoxOpen_valid m n skE skR
  generichash_length := fun x => by simp
  generichash_inj := fun x y h => encAny_inj (List.head_eq_of_cons_eq h)
  pwhash_length := fun p s => by simp
  pwhash_inj := fun p p' s s' h => by
    have := Nat.pair_eq_pair.mp (List.head_eq_of_cons_eq h)
    exact ⟨encAny_inj this.1, encAny_inj this.2⟩

/- ---------------------------------------------------------------------
Helper lemmas shared by the claim proofs: `crypto_secretbox_open_easy`
fails under a wrong key, a wrong nonce, or on a byte-flipped ciphertext.
--------------------------------------------------------------------- -/

theorem secretbox_open_wrong_key (S : SodiumModel) {m n k k' : Bytes}
    (h : k' ≠ k) : S.secretbox_open_easy (S.secretbox_easy m n k) n k' = none := by
  cases hop : S.secretbox_open_easy (S.secretbox_easy m n k) n k' with
  | none => rfl
  | some m'' =>
    have := S.secretbox_open_auth _ _ _ _ hop
    exact absurd (S.secretbox_inj _ _ _ _ _ _ this).2.2.symm h

theorem secretbox_open_wrong_nonce (S : SodiumModel) {m n n' k : Bytes}
    (h : n' ≠ n) : S.secretbox_open_easy (S.secretbox_easy m n k) n' k = none := by
  cases hop : S.secretbox_open_easy (S.secretbox_easy m n k) n' k with
  | none => rfl
  | some m'' =>
    have := S.secretbox_open_auth _ _ _ _ hop
    exact absurd (S.secretbox_inj _ _ _ _ _ _ this).2.1.symm h

theorem secretbox_open_flip (S : SodiumModel) {m n k : Bytes} {c' : Bytes}
    (i v : Nat) (hc : c' = (S.secretbox_easy m n k).set i v)
    (hne : c' ≠ S.secretbox_easy m n k) :
    S.secretbox_open_easy c' n k = none := by
  cases hop : S.secretbox_open_easy c' n k with
  | none => rfl
  | some m'' =>
    have hauth := S.secretbox_open_auth _ _ _ _ hop
    by_cases hm : m'' = m
    · rw [hm] at hauth
      exact absurd hauth hne
    · exact absurd (hc ▸ hauth)
        (S.secretbox_flip_reject m m'' n k i v (fun h => hm h.symm))

/-- Slicing a byte-flipped `nonce(24) || ciphertext` envelope: the flip
lands in exactly one of the two regions. -/
theorem envelope_set_parts {n ct : Bytes} (hn : n.length = 24) (i v : Nat) :
    ((n ++ ct).set i v).take 24 = (if i < 24 then n.set i v else n) ∧
    ((n ++ ct).set i v).drop 24 = (if i < 24 then ct else ct.set (i - 24) v) := by
  rw [List.set_append, hn]
  by_cases h : i < 24
  · rw [if_pos h, if_pos h, if_pos h,
      List.take_left' (by rw [List.length_set]; exact hn),
      List.drop_left' (by rw [List.length_set]; exact hn)]
    exact ⟨rfl, rfl⟩
  · rw [if_neg h, if_neg h, if_neg h, List.take_left' hn, List.drop_left' hn]
    exact ⟨rfl, rfl⟩

/-- Core tamper-detection fact: opening the sliced parts of a byte-flipped
envelope fails, whatever region the flip hit. -/
theorem open_flipped_envelope (S : SodiumModel) {m n k : Bytes}
    (hn : n.length = 24) (i v : Nat)
    (hne : (n ++ S.secretbox_easy m n k).set i v ≠ n ++ S.secretbox_easy m n k) :
    S.secretbox_open_easy
      (((n ++ S.secretbox_easy m n k).set i v).drop 24)
      (((n ++ S.secretbox_easy m n k).set i v).take 24) k = none := by
  obtain ⟨htake, hdrop⟩ := @envelope_set_parts n (S.secretbox_easy m n k) hn i v
  rw [htake, hdrop]
  by_cases h : i < 24
  · rw [if_pos h, if_pos h]
    have hflip : n.set i v ≠ n := by
      intro heq
      exact hne (by rw [List.set_append, hn, if_pos h, heq])
    exact secretbox_open_wrong_nonce S hflip
  · rw [if_neg h, if_neg h]
    have hflip : (S.secretbox_easy m n k).set (i - 24) v ≠ S.secretbox_easy m n k := by
      intro heq
      exact hne (by rw [List.set_append, hn, if_neg h, heq])
    exact secretbox_open_flip S (i - 24) v rfl hflip

/-- Reduction of a successful `Except` bind (do-notation step). -/
theorem okBind {ε α β : Type} (a : α) (f : α → Except ε β) :
    (Except.ok a : Except ε α) >>= f = f a := rfl

/-- Reduction of a failed `Except` bind (a throw aborts the do-block). -/
theorem errBind {ε α β : Type} (e : ε) (f : α → Except ε β) :
    (Except.error e : Except ε α) >>= f = .error e := rfl

/- ---------------------------------------------------------------------
The claims.
--------------------------------------------------------------------- -/

/-- Claim C1 (private-key vault round-trip): for every non-empty private
key (given base64-encoded, as `generateKeyPair` produces it) and non-empty
password, decrypting the blob produced by `encryptPrivateKey` with the
same password returns exactly the original base64 private key.  The salt
and nonce are the two random draws of the sealing call, of the lengths
`randombytes_buf` is asked for (SALTBYTES = 16, NONCEBYTES = 24). -/
theorem C1_private_key_vault_roundtrip (S : SodiumModel) (kb : Bytes)
    (p : Str) (salt nonce : Bytes) (hkb : kb ≠ []) (hp : p ≠ [])
    (hsalt : salt.length = 16) (hnonce : nonce.length = 24) :
    (encryptPrivateKey S (S.to_base64 kb) p salt nonce).bind
      (fun blob => decryptPrivateKey S blob p) = .ok (S.to_base64 kb) := by
  have hguard : ¬(S.to_base64 kb = [] ∨ p = []) := by
    rintro (h | h)
    · exact S.b64_ne_nil kb hkb h
    · exact hp h
  rw [encryptPrivateKey, if_neg hguard]
  rw [show (do
      let key := S.pwhash 32 p salt
      let privateKeyBytes ← from_base64E S (S.to_base64 kb)
      let ciphertext := S.secretbox_easy privateKeyBytes nonce key
      pure (S.to_base64 (salt ++ nonce ++ ciphertext)) :
        Except CryptoError Str) =
    .ok (S.to_base64 (salt ++ nonce ++
      S.secretbox_easy kb nonce (S.pwhash 32 p salt))) by
    rw [from_base64E_to_base64]; rfl]
  show decryptPrivateKey S _ p = _
  rw [decryptPrivateKey, from_base64E_to_base64]
  have htake : (salt ++ nonce ++
      S.secretbox_easy kb nonce (S.pwhash 32 p salt)).take 16 = salt := by
    rw [List.append_assoc]
    exact List.take_left' hsalt
  have hdrop : (salt ++ nonce ++
      S.secretbox_easy kb nonce (S.pwhash 32 p salt)).drop 16 =
      nonce ++ S.secretbox_easy kb nonce (S.pwhash 32 p salt) := by
    rw [List.append_assoc]
    exact List.drop_left' hsalt
  have hdrop40 : (salt ++ nonce ++
      S.secretbox_easy kb nonce (S.pwhash 32 p salt)).drop 40 =
      S.secretbox_easy kb nonce (S.pwhash 32 p salt) :=
    List.drop_left' (by rw [List.length_append, hsalt, hnonce])
  have hopen : openE S (S.secretbox_easy kb nonce (S.pwhash 32 p salt)) nonce
      (S.pwhash 32 p salt) = .ok kb := by
    unfold openE
    rw [S.secretbox_open_valid kb nonce (S.pwhash 32 p salt) hnonce
      (S.pwhash_length p salt)]
  simp only [okBind, htake, hdrop, hdrop40, List.take_left' hnonce, hopen]
  rfl

/-- Witness for C1 at the concrete model and concrete inputs. -/
theorem C1_private_key_vault_roundtrip_witness :
    (encryptPrivateKey IdealSodium (IdealSodium.to_base64 [1]) [2]
        (List.replicate 16 0) (List.replicate 24 0)).bind
      (fun blob => decryptPrivateKey IdealSodium blob [2]) =
      .ok (IdealSodium.to_base64 [1]) :=
  C1_private_key_vault_roundtrip IdealSodium [1] [2]
    (List.replicate 16 0) (List.replicate 24 0)
    (by decide) (by decide) (by decide) (by decide)

/-- Claim C2 (wrong-password rejection): decrypting a sealed private-key
blob with a different password fails with the single generic
`decryptionFailed` error and produces no output; and the same single
error is produced when the blob is corrupted (any byte of the decoded
blob overwritten) and opened with the correct password, so the error
does not distinguish wrong password from corrupted data. -/
theorem C2_wrong_password_rejection (S : SodiumModel) (kb : Bytes)
    (p₁ p₂ : Str) (salt nonce : Bytes) (i v : Nat)
    (hkb : kb ≠ []) (hp₁ : p₁ ≠ [])
    (hsalt : salt.length = 16) (hnonce : nonce.length = 24)
    (hp : p₂ ≠ p₁)
    (hflip : (salt ++ nonce ++
        S.secretbox_easy kb nonce (S.pwhash 32 p₁ salt)).set i v ≠
      salt ++ nonce ++ S.secretbox_easy kb nonce (S.pwhash 32 p₁ salt)) :
    (encryptPrivateKey S (S.to_base64 kb) p₁ salt nonce).bind
      (fun blob => decryptPrivateKey S blob p₂) = .error .decryptionFailed ∧
    decryptPrivateKey S
      (S.to_base64 ((salt ++ nonce ++
        S.secretbox_easy kb nonce (S.pwhash 32 p₁ salt)).set i v)) p₁ =
      .error .decryptionFailed := by
  have hguard : ¬(S.to_base64 kb = [] ∨ p₁ = []) := by
    rintro (h | h)
    · exact S.b64_ne_nil kb hkb h
    · exact hp₁ h
  set k₁ := S.pwhash 32 p₁ salt with hk₁
  set ct := S.secretbox_easy kb nonce k₁ with hct
  constructor
  · rw [encryptPrivateKey, if_neg hguard]
    rw [show (do
        let key := S.pwhash 32 p₁ salt
        let privateKeyBytes ← from_base64E S (S.to_base64 kb)
        let ciphertext := S.secretbox_easy privateKeyBytes nonce key
        pure (S.to_base64 (salt ++ nonce ++ ciphertext)) :
          Except CryptoError Str) = .ok (S.to_base64 (salt ++ nonce ++ ct)) by
      rw [from_base64E_to_base64]; rfl]
    show decryptPrivateKey S _ p₂ = _
    rw [decryptPrivateKey, from_base64E_to_base64]
    have htake : (salt ++ nonce ++ ct).take 16 = salt := by
      rw [List.append_assoc]; exact List.take_left' hsalt
    have hdrop : (salt ++ nonce ++ ct).drop 16 = nonce ++ ct := by
      rw [List.append_assoc]; exact List.drop_left' hsalt
    have hdrop40 : (salt ++ nonce ++ ct).drop 40 = ct :=
      List.drop_left' (by rw [List.length_append, hsalt, hnonce])
    have hkne : S.pwhash 32 p₂ salt ≠ k₁ := by
      intro h
      exact hp (S.pwhash_inj _ _ _ _ h).1
    have hopen : openE S ct nonce (S.pwhash 32 p₂ salt) =
        .error .decryptionFailed := by
      unfold openE
      rw [hct, secretbox_open_wrong_key S hkne]
    simp only [okBind, htake, hdrop, hdrop40, List.take_left' hnonce, hopen]
    rfl
  · rw [decryptPrivateKey, from_base64E_to_base64]
    rw [List.append_assoc, List.set_append, hsalt]
    by_cases h16 : i < 16
    · rw [if_pos h16]
      have hsne : salt.set i v ≠ salt := by
        intro heq
        exact hflip (by rw [List.append_assoc, List.set_append, hsalt,
          if_pos h16, heq])
      have htake : (salt.set i v ++ (nonce ++ ct)).take 16 = salt.set i v :=
        List.take_left' (by rw [List.length_set]; exact hsalt)
      have hdrop : (salt.set i v ++ (nonce ++ ct)).drop 16 = nonce ++ ct :=
        List.drop_left' (by rw [List.length_set]; exact hsalt)
      have hdrop40 : (salt.set i v ++ (nonce ++ ct)).drop 40 = ct := by
        have h2 : List.drop 24 (List.drop 16 (salt.set i v ++ (nonce ++ ct))) = ct := by
          rw [hdrop]
          exact List.drop_left' hnonce
        rw [List.drop_drop] at h2
        exact h2
      have hkne : k₁ ≠ S.pwhash 32 p₁ (salt.set i v) := by
        intro h
        exact hsne ((S.pwhash_inj _ _ _ _ h).2).symm
      have hopen : openE S ct nonce (S.pwhash 32 p₁ (salt.set i v)) =
          .error .decryptionFailed := by
        unfold openE
        rw [hct, secretbox_open_wrong_key S (fun h => hkne h.symm)]
      simp only [okBind, htake, hdrop, hdrop40, List.take_left' hnonce, hopen]
      rfl
    · rw [if_neg h16]
      have hinner : (nonce ++ ct).set (i - 16) v ≠ nonce ++ ct := by
        intro heq
        exact hflip (by rw [List.append_assoc, List.set_append, hsalt,
          if_neg h16, heq])
      have htake : (salt ++ (nonce ++ ct).set (i - 16) v).take 16 = salt :=
        List.take_left' hsalt
      have hdrop : (salt ++ (nonce ++ ct).set (i - 16) v).drop 16 =
          (nonce ++ ct).set (i - 16) v := List.drop_left' hsalt
      have hdrop40 : (salt ++ (nonce ++ ct).set (i - 16) v).drop 40 =
          ((nonce ++ ct).set (i - 16) v).drop 24 := by
        have h2 : List.drop 24 (List.drop 16 (salt ++ (nonce ++ ct).set (i - 16) v)) =
            ((nonce ++ ct).set (i - 16) v).drop 24 := by
          rw [hdrop]
        rw [List.drop_drop] at h2
        exact h2
      have hopen : openE S (((nonce ++ ct).set (i - 16) v).drop 24)
          (((nonce ++ ct).set (i - 16) v).take 24) k₁ =
          .error .decryptionFailed := by
        unfold openE
        rw [hct, open_flipped_envelope S hnonce (i - 16) v (hct ▸ hinner)]
      simp only [okBind, htake, hdrop, hdrop40, hopen]
      rfl

/-- Witness for C2 at the concrete model and concrete inputs (the
corrupting flip overwrites byte 0 of the blob with 7). -/
theorem C2_wrong_password_rejection_witness :
    (encryptPrivateKey IdealSodium (IdealSodium.to_base64 [1]) [1]
        (List.replicate 16 0) (List.replicate 24 0)).bind
      (fun blob => decryptPrivateKey IdealSodium blob [2]) =
      .error .decryptionFailed ∧
    decryptPrivateKey IdealSodium
      (IdealSodium.to_base64 ((List.replicate 16 0 ++ List.replicate 24 0 ++
        IdealSodium.secretbox_easy [1] (List.replicate 24 0)
          (IdealSodium.pwhash 32 [1] (List.replicate 16 0))).set 0 7)) [1] =
      .error .decryptionFailed :=
  C2_wrong_password_rejection IdealSodium [1] [1] [2]
    (List.replicate 16 0) (List.replicate 24 0) 0 7
    (by decide) (by decide) (by decide) (by decide) (by decide)
    (by decide)

/-- Claim C5 (Protocol A key-wrap round-trip): for every participant
keypair produced by `generateKeyPair` (secret draw `u_sk`) and every
32-byte shared symmetric key, unwrapping the blob produced by
`encryptSymmetricKey` (whose wire format is
`ephemeralPublicKey || nonce || box ciphertext`) with the participant's
private key returns exactly the symmetric key.  `esk` is the ephemeral
keypair's secret draw and `nonce` the 24-byte random nonce. -/
theorem C5_key_wrap_roundtrip (S : SodiumModel) (kb u_sk esk nonce : Bytes)
    (hkb : kb.length = 32) (hnonce : nonce.length = 24) :
    (encryptSymmetricKey S (S.to_base64 kb)
        (generateKeyPair S u_sk).publicKey esk nonce).bind
      (fun blob => decryptSymmetricKey S blob
        (generateKeyPair S u_sk).privateKey) = .ok (S.to_base64 kb) := by
  set ct := S.box_easy kb nonce (S.box_pk u_sk) esk with hct
  rw [show (generateKeyPair S u_sk).publicKey = S.to_base64 (S.box_pk u_sk)
    from rfl]
  rw [show (generateKeyPair S u_sk).privateKey = S.to_base64 u_sk from rfl]
  rw [encryptSymmetricKey]
  rw [from_base64E_to_base64, from_base64E_to_base64]
  simp only [okBind]
  show decryptSymmetricKey S (S.to_base64 (S.box_pk esk ++ nonce ++ ct))
    (S.to_base64 u_sk) = _
  rw [decryptSymmetricKey, from_base64E_to_base64]
  have htake : (S.box_pk esk ++ nonce ++ ct).take 32 = S.box_pk esk := by
    rw [List.append_assoc]
    exact List.take_left' (S.box_pk_length esk)
  have hdrop : (S.box_pk esk ++ nonce ++ ct).drop 32 = nonce ++ ct := by
    rw [List.append_assoc]
    exact List.drop_left' (S.box_pk_length esk)
  have hdrop56 : (S.box_pk esk ++ nonce ++ ct).drop 56 = ct :=
    List.drop_left' (by rw [List.length_append, S.box_pk_length esk, hnonce])
  have hopen : boxOpenE S ct nonce (S.box_pk esk) u_sk = .ok kb := by
    unfold boxOpenE
    rw [hct, S.box_roundtrip kb nonce esk u_sk hnonce]
  simp only [okBind, htake, hdrop, hdrop56, List.take_left' hnonce,
    from_base64E_to_base64, hopen]
  rfl

/-- Witness for C5 at the concrete model and concrete inputs. -/
theorem C5_key_wrap_roundtrip_witness :
    (encryptSymmetricKey IdealSodium (IdealSodium.to_base64 (List.replicate 32 3))
        (generateKeyPair IdealSodium [4]).publicKey [5] (List.replicate 24 0)).bind
      (fun blob => decryptSymmetricKey IdealSodium blob
        (generateKeyPair IdealSodium [4]).privateKey) =
      .ok (IdealSodium.to_base64 (List.replicate 32 3)) :=
  C5_key_wrap_roundtrip IdealSodium (List.replicate 32 3) [4] [5]
    (List.replicate 24 0) (by decide) (by decide)

/-- Claim C6 (tamper detection): overwriting any single byte of an
envelope produced by the media cipher (`encryptBuffer`, layout
`nonce(24) || ciphertext`) - whether the flip lands in the nonce portion
or the ciphertext portion - makes `decryptBuffer` under the same key fail
with the generic decryption error and return no plaintext; and the same
byte-flipped envelope, stored via base64 and split by
`separateCiphertextAndNonce`, makes `decryptMessage` under the same key
fail identically. -/
theorem C6_tamper_detection (S : SodiumModel) (m n kb : Bytes) (i v : Nat)
    (hn : n.length = 24)
    (hflip : (encryptBuffer S m kb n).set i v ≠ encryptBuffer S m kb n) :
    decryptBuffer S ((encryptBuffer S m kb n).set i v) kb =
      .error .decryptionFailed ∧
    (separateCiphertextAndNonce S
        (S.to_base64 ((encryptBuffer S m kb n).set i v))).bind
      (fun ed => decryptMessage S ed (S.to_base64 kb)) =
      .error .decryptionFailed := by
  have hflip' : (n ++ S.secretbox_easy m n kb).set i v ≠
      n ++ S.secretbox_easy m n kb := hflip
  have hopen := @open_flipped_envelope S m n kb hn i v hflip'
  constructor
  · show (match S.secretbox_open_easy
        (((n ++ S.secretbox_easy m n kb).set i v).drop 24)
        (((n ++ S.secretbox_easy m n kb).set i v).take 24) kb with
      | some d => Except.ok d
      | none => Except.error CryptoError.decryptionFailed) = _
    rw [hopen]
  · show (separateCiphertextAndNonce S
        (S.to_base64 ((n ++ S.secretbox_easy m n kb).set i v))).bind
      (fun ed => decryptMessage S ed (S.to_base64 kb)) = _
    rw [separateCiphertextAndNonce, from_base64E_to_base64]
    simp only [okBind]
    show decryptMessage S _ (S.to_base64 kb) = _
    rw [decryptMessage, from_base64E_to_base64, from_base64E_to_base64,
      from_base64E_to_base64]
    have hopenE : openE S (((n ++ S.secretbox_easy m n kb).set i v).drop 24)
        (((n ++ S.secretbox_easy m n kb).set i v).take 24) kb =
        .error .decryptionFailed := by
      unfold openE
      rw [hopen]
    simp only [okBind, hopenE]
    rfl

/-- Witness for C6 at the concrete model and concrete inputs (the flip
overwrites byte 0, in the nonce region, with 5). -/
theorem C6_tamper_detection_witness :
    decryptBuffer IdealSodium
      ((encryptBuffer IdealSodium [9] (List.replicate 32 0)
        (List.replicate 24 0)).set 0 5) (List.replicate 32 0) =
      .error .decryptionFailed ∧
    (separateCiphertextAndNonce IdealSodium
        (IdealSodium.to_base64 ((encryptBuffer IdealSodium [9]
          (List.replicate 32 0) (List.replicate 24 0)).set 0 5))).bind
      (fun ed => decryptMessage IdealSodium ed
        (IdealSodium.to_base64 (List.replicate 32 0))) =
      .error .decryptionFailed :=
  C6_tamper_detection IdealSodium [9] (List.replicate 24 0)
    (List.replicate 32 0) 0 5 (by decide) (by decide)

/-- Claim C7 (envelope format and length): the media envelope is
`nonce(24) || ciphertext` with total length `24 + plaintext_len + 16`
(16 = `crypto_secretbox_MACBYTES`, the authentication-tag length); the
message cipher produces the ciphertext and its 24-byte nonce, and
`combineCiphertextAndNonce` stores them in the same
`nonce || ciphertext` layout, whose decoded length is again
`24 + plaintext_len + 16`. -/
theorem C7_envelope_format (S : SodiumModel) (m kb k n : Bytes)
    (hn : n.length = 24) :
    (encryptBuffer S m k n).length = 24 + m.length + 16 ∧
    encryptMessage S m (S.to_base64 kb) n =
      .ok { ciphertext := S.to_base64 (S.secretbox_easy m n kb)
            nonce := S.to_base64 n } ∧
    combineCiphertextAndNonce S (S.to_base64 (S.secretbox_easy m n kb))
      (S.to_base64 n) = .ok (S.to_base64 (n ++ S.secretbox_easy m n kb)) ∧
    S.from_base64 (S.to_base64 (n ++ S.secretbox_easy m n kb)) =
      some (n ++ S.secretbox_easy m n kb) ∧
    (n ++ S.secretbox_easy m n kb).length = 24 + m.length + 16 := by
  refine ⟨?_, ?_, ?_, S.b64_roundtrip _, ?_⟩
  · show (n ++ S.secretbox_easy m n k).length = 24 + m.length + 16
    rw [List.length_append, hn, S.secretbox_length]
    omega
  · rw [encryptMessage, from_base64E_to_base64]
    rfl
  · rw [combineCiphertextAndNonce, from_base64E_to_base64,
      from_base64E_to_base64]
    rfl
  · rw [List.length_append, hn, S.secretbox_length]
    omega

/-- Witness for C7 at the concrete model and concrete inputs. -/
theorem C7_envelope_format_witness :
    (encryptBuffer IdealSodium [1, 2] (List.replicate 32 0)
      (List.replicate 24 0)).length = 24 + 2 + 16 ∧
    encryptMessage IdealSodium [1, 2]
      (IdealSodium.to_base64 (List.replicate 32 0)) (List.replicate 24 0) =
      .ok { ciphertext := IdealSodium.to_base64 (IdealSodium.secretbox_easy
              [1, 2] (List.replicate 24 0) (List.replicate 32 0))
            nonce := IdealSodium.to_base64 (List.replicate 24 0) } ∧
    combineCiphertextAndNonce IdealSodium
      (IdealSodium.to_base64 (IdealSodium.secretbox_easy [1, 2]
        (List.replicate 24 0) (List.replicate 32 0)))
      (IdealSodium.to_base64 (List.replicate 24 0)) =
      .ok (IdealSodium.to_base64 (List.replicate 24 0 ++
        IdealSodium.secretbox_easy [1, 2] (List.replicate 24 0)
          (List.replicate 32 0))) ∧
    IdealSodium.from_base64 (IdealSodium.to_base64 (List.replicate 24 0 ++
      IdealSodium.secretbox_easy [1, 2] (List.replicate 24 0)
        (List.replicate 32 0))) =
      some (List.replicate 24 0 ++ IdealSodium.secretbox_easy [1, 2]
        (List.replicate 24 0) (List.replicate 32 0)) ∧
    (List.replicate 24 0 ++ IdealSodium.secretbox_easy [1, 2]
      (List.replicate 24 0) (List.replicate 32 0)).length = 24 + 2 + 16 :=
  C7_envelope_format IdealSodium [1, 2] (List.replicate 32 0)
    (List.replicate 32 0) (List.replicate 24 0) (by decide)

/-- Claim C9 (nonce uniqueness as a two-run property): two runs of
message encryption on the same plaintext and key with distinct random
24-byte nonce draws never produce identical envelopes, for both the
message cipher (`encryptMessage`) and the media cipher
(`encryptBuffer`). -/
theorem C9_nonce_uniqueness (S : SodiumModel) (m kb k n₁ n₂ : Bytes)
    (h₁ : n₁.length = 24) (h₂ : n₂.length = 24) (hne : n₁ ≠ n₂) :
    encryptMessage S m (S.to_base64 kb) n₁ ≠
      encryptMessage S m (S.to_base64 kb) n₂ ∧
    encryptBuffer S m k n₁ ≠ encryptBuffer S m k n₂ := by
  constructor
  · rw [encryptMessage, encryptMessage, from_base64E_to_base64]
    simp only [okBind]
    intro h
    have h' := Except.ok.inj h
    have hnn : S.to_base64 n₁ = S.to_base64 n₂ :=
      congrArg EncryptedData.nonce h'
    exact hne (to_base64_inj S hnn)
  · intro h
    have h' : (n₁ ++ S.secretbox_easy m n₁ k).take 24 =
        (n₂ ++ S.secretbox_easy m n₂ k).take 24 := by
      exact congrArg (List.take 24) h
    rw [List.take_left' h₁, List.take_left' h₂] at h'
    exact hne h'

/-- Witness for C9 at the concrete model and concrete inputs. -/
theorem C9_nonce_uniqueness_witness :
    encryptMessage IdealSodium [7] (IdealSodium.to_base64 (List.replicate 32 0))
        (List.replicate 24 0) ≠
      encryptMessage IdealSodium [7] (IdealSodium.to_base64 (List.replicate 32 0))
        (1 :: List.replicate 23 0) ∧
    encryptBuffer IdealSodium [7] (List.replicate 32 0) (List.replicate 24 0) ≠
      encryptBuffer IdealSodium [7] (List.replicate 32 0) (1 :: List.replicate 23 0) :=
  C9_nonce_uniqueness IdealSodium [7] (List.replicate 32 0) (List.replicate 32 0)
    (List.replicate 24 0) (1 :: List.replicate 23 0)
    (by decide) (by decide) (by decide)

/-- Reduction of `Except.bind` on a success (explicit-bind form). -/
theorem exceptOkBind {ε α β : Type} (a : α) (f : α → Except ε β) :
    Except.bind (Except.ok a : Except ε α) f = f a := rfl

/-- Reduction of `Except.bind` on a failure (explicit-bind form). -/
theorem exceptErrBind {ε α β : Type} (e : ε) (f : α → Except ε β) :
    Except.bind (Except.error e : Except ε α) f = .error e := rfl

/-- A row appended to a table that lacked the key is found by lookup. -/
theorem dbLookup_append_none {α : Type} (rows : List (Str × α)) (cid : Str)
    (x : α) (h : dbLookup rows cid = none) :
    dbLookup (rows ++ [(cid, x)]) cid = some x := by
  induction rows with
  | nil => simp [dbLookup]
  | cons r t ih =>
    rw [List.cons_append]
    rw [dbLookup] at h ⊢
    split at h
    · cases h
    · next hne =>
      rw [if_neg hne]
      exact ih h

theorem getConversationSalt_stored (S : SodiumModel)
    (salts0 salts1 : List (Str × Str)) (cid : Str) (fresh : Bytes)
    (s : Str) (sb : Bytes) (hs : dbLookup salts0 cid = some s)
    (hd : S.from_base64 s = some sb) :
    getConversationSalt S salts0 salts1 cid fresh = .ok (sb, salts1) := by
  rw [getConversationSalt, hs]
  show from_base64E S s >>= (fun saltBytes => pure (saltBytes, salts1)) = _
  rw [show from_base64E S s = .ok sb by rw [from_base64E, hd]]
  rfl

theorem getConversationSalt_create (S : SodiumModel)
    (salts0 salts1 : List (Str × Str)) (cid : Str) (fresh : Bytes)
    (h0 : dbLookup salts0 cid = none) (h1 : dbLookup salts1 cid = none) :
    getConversationSalt S salts0 salts1 cid fresh =
      .ok (fresh, salts1 ++ [(cid, S.to_base64 fresh)]) := by
  rw [getConversationSalt, h0, h1]
  rfl

theorem getConversationSalt_conflict (S : SodiumModel)
    (salts0 salts1 : List (Str × Str)) (cid : Str) (fresh : Bytes)
    (s : Str) (sb : Bytes) (h0 : dbLookup salts0 cid = none)
    (h1 : dbLookup salts1 cid = some s) (hd : S.from_base64 s = some sb) :
    getConversationSalt S salts0 salts1 cid fresh = .ok (sb, salts1) := by
  rw [getConversationSalt, h0, h1]
  show from_base64E S s >>= (fun saltBytes => pure (saltBytes, salts1)) = _
  rw [show from_base64E S s = .ok sb by rw [from_base64E, hd]]
  rfl

/-- A successful fetch-or-create leaves the store in a state from which
every later call returns the same salt and the same store. -/
theorem getConversationSalt_stable (S : SodiumModel)
    (salts : List (Str × Str)) (cid : Str) (fresh : Bytes)
    (r : Bytes × List (Str × Str))
    (h : getConversationSalt S salts salts cid fresh = .ok r) :
    ∀ f₂, getConversationSalt S r.2 r.2 cid f₂ = .ok (r.1, r.2) := by
  intro f₂
  cases hs : dbLookup salts cid with
  | some s =>
    cases hd : S.from_base64 s with
    | none =>
      have hrun : getConversationSalt S salts salts cid fresh =
          .error .badEncoding := by
        rw [getConversationSalt, hs]
        show from_base64E S s >>= (fun saltBytes => pure (saltBytes, salts)) = _
        rw [show from_base64E S s = .error .badEncoding by rw [from_base64E, hd]]
        rfl
      rw [hrun] at h
      cases h
    | some sb =>
      have hrun := getConversationSalt_stored S salts salts cid fresh s sb hs hd
      rw [hrun] at h
      have hr := Except.ok.inj h
      rw [← hr]
      exact getConversationSalt_stored S salts salts cid f₂ s sb hs hd
  | none =>
    have hrun := getConversationSalt_create S salts salts cid fresh hs hs
    rw [hrun] at h
    have hr := Except.ok.inj h
    rw [← hr]
    exact getConversationSalt_stored S _ _ cid f₂ (S.to_base64 fresh) fresh
      (dbLookup_append_none salts cid (S.to_base64 fresh) hs)
      (S.b64_roundtrip fresh)

/-- Unfolding `deriveConversationKey` once the conversation is found. -/
theorem deriveConversationKey_eq (S : SodiumModel) (db : PrismaDB)
    (cid userEmail : Str) (fresh : Bytes) (conv : Conversation)
    (hconv : dbLookup db.conversations cid = some conv) :
    deriveConversationKey S db cid userEmail fresh =
      Except.bind
        (getConversationSalt S db.conversationSalts db.conversationSalts
          cid fresh)
        (fun r => .ok (S.generichash 32
          ((cid ++ 58 :: joinColon (sortStrings
            (conv.participants.map (fun p => p.email)))) ++ S.to_base64 r.1),
          { db with conversationSalts := r.2 })) := by
  rw [deriveConversationKey, hconv]
  rfl

/-- Claim C3 (Protocol B derivation determinism): for an existing
conversation, `deriveConversationKey` returns the 32-byte generic hash of
the seed `conversationId ++ ":" ++ sortedParticipantEmails.join(":")`
combined with the Base64 of the conversation salt; the result does not
depend on the `userEmail` argument (which the source never uses), and a
repeated call after any successful call returns the identical key and
leaves the store unchanged. -/
theorem C3_protocol_b_derivation (S : SodiumModel) (db : PrismaDB)
    (cid u₁ u₂ : Str) (f₁ f₂ : Bytes) (conv : Conversation) (sb : Bytes)
    (K : Bytes) (db' : PrismaDB)
    (hconv : dbLookup db.conversations cid = some conv)
    (hrun : deriveConversationKey S db cid u₁ f₁ = .ok (K, db')) :
    K.length = 32 ∧
    deriveConversationKey S db cid u₁ f₁ =
      deriveConversationKey S db cid u₂ f₁ ∧
    deriveConversationKey S db' cid u₂ f₂ = .ok (K, db') ∧
    (dbLookup db.conversationSalts cid = some (S.to_base64 sb) →
      K = S.generichash 32 ((cid ++ 58 :: joinColon (sortStrings
        (conv.participants.map (fun p => p.email)))) ++ S.to_base64 sb) ∧
      db' = db) := by
  rw [deriveConversationKey_eq S db cid u₁ f₁ conv hconv] at hrun
  cases hg : getConversationSalt S db.conversationSalts db.conversationSalts
      cid f₁ with
  | error e =>
    rw [hg, exceptErrBind] at hrun
    cases hrun
  | ok r =>
    rw [hg, exceptOkBind] at hrun
    have hinj := Except.ok.inj hrun
    have hKeq := congrArg Prod.fst hinj
    have hdbeq := congrArg Prod.snd hinj
    simp only at hKeq hdbeq
    refine ⟨?_, ?_, ?_, ?_⟩
    · rw [← hKeq]
      exact S.generichash_length _
    · rfl
    · have hstable := getConversationSalt_stable S db.conversationSalts cid
        f₁ r hg f₂
      have hconv' : dbLookup db'.conversations cid = some conv := by
        rw [← hdbeq]
        exact hconv
      rw [deriveConversationKey_eq S db' cid u₂ f₂ conv hconv']
      have hsalts : db'.conversationSalts = r.2 := by rw [← hdbeq]
      rw [hsalts, hstable, exceptOkBind, ← hKeq, ← hdbeq]
    · intro hs
      have hstored := getConversationSalt_stored S db.conversationSalts
        db.conversationSalts cid f₁ (S.to_base64 sb) sb hs (S.b64_roundtrip sb)
      have hr : r = (sb, db.conversationSalts) :=
        (Except.ok.inj (hstored.symm.trans hg)).symm
      constructor
      · rw [← hKeq, hr]
      · rw [← hdbeq, hr]

/-- Witness for C3 at the concrete model and concrete inputs (an existing
two-participant conversation with a stored salt). -/
theorem C3_protocol_b_derivation_witness :
    (IdealSodium.generichash 32 (([99] ++ 58 :: joinColon (sortStrings
      ((Conversation.mk [Participant.mk [97], Participant.mk [98]]).participants.map
        (fun p => p.email)))) ++
      IdealSodium.to_base64 (List.replicate 32 0))).length = 32 ∧
    deriveConversationKey IdealSodium
      (PrismaDB.mk [([99], Conversation.mk [Participant.mk [97], Participant.mk [98]])]
        [([99], IdealSodium.to_base64 (List.replicate 32 0))]) [99] [97] [1] =
      deriveConversationKey IdealSodium
        (PrismaDB.mk [([99], Conversation.mk [Participant.mk [97], Participant.mk [98]])]
          [([99], IdealSodium.to_base64 (List.replicate 32 0))]) [99] [98] [1] ∧
    deriveConversationKey IdealSodium
      (PrismaDB.mk [([99], Conversation.mk [Participant.mk [97], Participant.mk [98]])]
        [([99], IdealSodium.to_base64 (List.replicate 32 0))]) [99] [98] [2] =
      .ok (IdealSodium.generichash 32 (([99] ++ 58 :: joinColon (sortStrings
          ((Conversation.mk [Participant.mk [97], Participant.mk [98]]).participants.map
            (fun p => p.email)))) ++
          IdealSodium.to_base64 (List.replicate 32 0)),
        PrismaDB.mk [([99], Conversation.mk [Participant.mk [97], Participant.mk [98]])]
          [([99], IdealSodium.to_base64 (List.replicate 32 0))]) ∧
    (dbLookup (PrismaDB.mk
        [([99], Conversation.mk [Participant.mk [97], Participant.mk [98]])]
        [([99], IdealSodium.to_base64 (List.replicate 32 0))]).conversationSalts [99] =
        some (IdealSodium.to_base64 (List.replicate 32 0)) →
      IdealSodium.generichash 32 (([99] ++ 58 :: joinColon (sortStrings
        ((Conversation.mk [Participant.mk [97], Participant.mk [98]]).participants.map
          (fun p => p.email)))) ++
        IdealSodium.to_base64 (List.replicate 32 0)) =
      IdealSodium.generichash 32 (([99] ++ 58 :: joinColon (sortStrings
        ((Conversation.mk [Participant.mk [97], Participant.mk [98]]).participants.map
          (fun p => p.email)))) ++
        IdealSodium.to_base64 (List.replicate 32 0)) ∧
      PrismaDB.mk [([99], Conversation.mk [Participant.mk [97], Participant.mk [98]])]
        [([99], IdealSodium.to_base64 (List.replicate 32 0))] =
      PrismaDB.mk [([99], Conversation.mk [Participant.mk [97], Participant.mk [98]])]
        [([99], IdealSodium.to_base64 (List.replicate 32 0))]) :=
  C3_protocol_b_derivation IdealSodium
    (PrismaDB.mk [([99], Conversation.mk [Participant.mk [97], Participant.mk [98]])]
      [([99], IdealSodium.to_base64 (List.replicate 32 0))])
    [99] [97] [98] [1] [2]
    (Conversation.mk [Participant.mk [97], Participant.mk [98]])
    (List.replicate 32 0)
    (IdealSodium.generichash 32 (([99] ++ 58 :: joinColon (sortStrings
      ((Conversation.mk [Participant.mk [97], Participant.mk [98]]).participants.map
        (fun p => p.email)))) ++
      IdealSodium.to_base64 (List.replicate 32 0)))
    (PrismaDB.mk [([99], Conversation.mk [Participant.mk [97], Participant.mk [98]])]
      [([99], IdealSodium.to_base64 (List.replicate 32 0))])
    (by decide) (by rfl)

/-- Claim C4 (idempotent salt creation): `getConversationSalt` returns
one stable 32-byte salt to every caller.  With `salts0` the table at the
caller's first read and `salts1` the table at its insert attempt: a salt
already stored at first read is returned as-is; when the first read
misses but a concurrent caller has inserted by insert time, the insert
raises the uniqueness conflict (Prisma P2002) and the function re-reads
and returns the already-stored salt instead of propagating an error; when
nothing is stored the fresh 32-byte draw is inserted and returned; and a
second caller whose insert-time snapshot is the first caller's post-state
observes exactly the first caller's salt, so no two callers ever observe
different salts. -/
theorem C4_idempotent_salt_creation (S : SodiumModel)
    (salts0 salts1 saltsB : List (Str × Str)) (cid : Str)
    (freshA freshB sb : Bytes)
    (hsb : sb.length = 32) (hlen : freshA.length = 32) :
    (dbLookup salts0 cid = some (S.to_base64 sb) →
      getConversationSalt S salts0 salts1 cid freshA = .ok (sb, salts1) ∧
      sb.length = 32) ∧
    (dbLookup salts0 cid = none →
      dbLookup salts1 cid = some (S.to_base64 sb) →
      getConversationSalt S salts0 salts1 cid freshA = .ok (sb, salts1) ∧
      sb.length = 32) ∧
    (dbLookup salts0 cid = none → dbLookup salts1 cid = none →
      getConversationSalt S salts0 salts1 cid freshA =
        .ok (freshA, salts1 ++ [(cid, S.to_base64 freshA)]) ∧
      freshA.length = 32) ∧
    (dbLookup salts1 cid = none →
      (dbLookup saltsB cid = none ∨
        dbLookup saltsB cid = some (S.to_base64 freshA)) →
      getConversationSalt S saltsB (salts1 ++ [(cid, S.to_base64 freshA)])
        cid freshB = .ok (freshA, salts1 ++ [(cid, S.to_base64 freshA)])) := by
  refine ⟨?_, ?_, ?_, ?_⟩
  · intro h
    exact ⟨getConversationSalt_stored S salts0 salts1 cid freshA
      (S.to_base64 sb) sb h (S.b64_roundtrip sb), hsb⟩
  · intro h0 h1
    exact ⟨getConversationSalt_conflict S salts0 salts1 cid freshA
      (S.to_base64 sb) sb h0 h1 (S.b64_roundtrip sb), hsb⟩
  · intro h0 h1
    exact ⟨getConversationSalt_create S salts0 salts1 cid freshA h0 h1, hlen⟩
  · intro h1 hB
    cases hB with
    | inl hB =>
      exact getConversationSalt_conflict S saltsB _ cid freshB
        (S.to_base64 freshA) freshA hB
        (dbLookup_append_none salts1 cid (S.to_base64 freshA) h1)
        (S.b64_roundtrip freshA)
    | inr hB =>
      exact getConversationSalt_stored S saltsB _ cid freshB
        (S.to_base64 freshA) freshA hB (S.b64_roundtrip freshA)

/-- Witness for C4 at the concrete model and concrete inputs (the
uniqueness-conflict path: first read misses, a concurrent caller has
stored a salt by insert time). -/
theorem C4_idempotent_salt_creation_witness :
    (dbLookup ([] : List (Str × Str)) [99] = some (IdealSodium.to_base64 (List.replicate 32 2)) →
      getConversationSalt IdealSodium []
        [([99], IdealSodium.to_base64 (List.replicate 32 2))] [99]
        (List.replicate 32 0) =
        .ok (List.replicate 32 2,
          [([99], IdealSodium.to_base64 (List.replicate 32 2))]) ∧
      (List.replicate 32 2 : Bytes).length = 32) ∧
    (dbLookup ([] : List (Str × Str)) [99] = none →
      dbLookup [([99], IdealSodium.to_base64 (List.replicate 32 2))] [99] =
        some (IdealSodium.to_base64 (List.replicate 32 2)) →
      getConversationSalt IdealSodium []
        [([99], IdealSodium.to_base64 (List.replicate 32 2))] [99]
        (List.replicate 32 0) =
        .ok (List.replicate 32 2,
          [([99], IdealSodium.to_base64 (List.replicate 32 2))]) ∧
      (List.replicate 32 2 : Bytes).length = 32) ∧
    (dbLookup ([] : List (Str × Str)) [99] = none →
      dbLookup [([99], IdealSodium.to_base64 (List.replicate 32 2))] [99] = none →
      getConversationSalt IdealSodium []
        [([99], IdealSodium.to_base64 (List.replicate 32 2))] [99]
        (List.replicate 32 0) =
        .ok (List.replicate 32 0,
          [([99], IdealSodium.to_base64 (List.replicate 32 2))] ++
            [([99], IdealSodium.to_base64 (List.replicate 32 0))]) ∧
      (List.replicate 32 0 : Bytes).length = 32) ∧
    (dbLookup [([99], IdealSodium.to_base64 (List.replicate 32 2))] [99] = none →
      (dbLookup ([] : List (Str × Str)) [99] = none ∨
        dbLookup ([] : List (Str × Str)) [99] = some (IdealSodium.to_base64 (List.replicate 32 0))) →
      getConversationSalt IdealSodium []
        ([([99], IdealSodium.to_base64 (List.replicate 32 2))] ++
          [([99], IdealSodium.to_base64 (List.replicate 32 0))]) [99]
        (List.replicate 32 1) =
        .ok (List.replicate 32 0,
          [([99], IdealSodium.to_base64 (List.replicate 32 2))] ++
            [([99], IdealSodium.to_base64 (List.replicate 32 0))])) :=
  C4_idempotent_salt_creation IdealSodium []
    [([99], IdealSodium.to_base64 (List.replicate 32 2))] [] [99]
    (List.replicate 32 0) (List.replicate 32 1) (List.replicate 32 2)
    (by decide) (by decide)

/- ---------------------------------------------------------------------
Injectivity of the seed construction, for colon-free participant emails.
--------------------------------------------------------------------- -/

theorem colonfree_append_inj : ∀ (a b x y : Str), (58 : Nat) ∉ a →
    (58 : Nat) ∉ b → a ++ 58 :: x = b ++ 58 :: y → a = b ∧ x = y := by
  intro a
  induction a with
  | nil =>
    intro b x y _ hb h
    cases b with
    | nil =>
      simp only [List.nil_append] at h
      exact ⟨rfl, List.tail_eq_of_cons_eq h⟩
    | cons d u =>
      simp only [List.nil_append, List.cons_append] at h
      exact absurd (List.head_eq_of_cons_eq h ▸ List.mem_cons_self d u) hb
  | cons c t ih =>
    intro b x y ha hb h
    cases b with
    | nil =>
      simp only [List.nil_append, List.cons_append] at h
      exact absurd (List.head_eq_of_cons_eq h.symm ▸ List.mem_cons_self c t) ha
    | cons d u =>
      simp only [List.cons_append] at h
      have hcd := List.head_eq_of_cons_eq h
      have htl := List.tail_eq_of_cons_eq h
      have := ih u x y (fun hm => ha (List.mem_cons_of_mem c hm))
        (fun hm => hb (List.mem_cons_of_mem d hm)) htl
      exact ⟨by rw [hcd, this.1], this.2⟩

theorem joinColon_inj : ∀ (l₁ l₂ : List Str), l₁ ≠ [] → l₂ ≠ [] →
    (∀ e ∈ l₁, (58 : Nat) ∉ e) → (∀ e ∈ l₂, (58 : Nat) ∉ e) →
    joinColon l₁ = joinColon l₂ → l₁ = l₂
  | [], _, h1, _, _, _, _ => absurd rfl h1
  | _ :: _, [], _, h2, _, _, _ => absurd rfl h2
  | [a], [b], _, _, _, _, heq => by rw [show a = b from heq]
  | [a], b :: c :: t₂, _, _, hc1, hc2, heq => by
    rw [show joinColon [a] = a from rfl,
      show joinColon (b :: c :: t₂) = b ++ 58 :: joinColon (c :: t₂) from rfl]
      at heq
    exact absurd (heq ▸ List.mem_append_right b (List.mem_cons_self 58 _))
      (hc1 a (List.mem_cons_self a _))
  | a :: b :: t₁, [c], _, _, hc1, hc2, heq => by
    rw [show joinColon [c] = c from rfl,
      show joinColon (a :: b :: t₁) = a ++ 58 :: joinColon (b :: t₁) from rfl]
      at heq
    exact absurd (heq ▸ List.mem_append_right a (List.mem_cons_self 58 _))
      (hc2 c (List.mem_cons_self c _))
  | a :: b :: t₁, c :: d :: t₂, _, _, hc1, hc2, heq => by
    rw [show joinColon (a :: b :: t₁) = a ++ 58 :: joinColon (b :: t₁) from rfl,
      show joinColon (c :: d :: t₂) = c ++ 58 :: joinColon (d :: t₂) from rfl]
      at heq
    have hsplit := colonfree_append_inj a c (joinColon (b :: t₁))
      (joinColon (d :: t₂)) (hc1 a (List.mem_cons_self a _))
      (hc2 c (List.mem_cons_self c _)) heq
    have htail := joinColon_inj (b :: t₁) (d :: t₂) (List.cons_ne_nil b t₁)
      (List.cons_ne_nil d t₂)
      (fun e he => hc1 e (List.mem_cons_of_mem a he))
      (fun e he => hc2 e (List.mem_cons_of_mem c he)) hsplit.2
    rw [hsplit.1, htail]

theorem insertSorted_ne_nil (e : Str) (l : List Str) :
    insertSorted e l ≠ [] := by
  cases l with
  | nil => exact List.cons_ne_nil e []
  | cons x t =>
    rw [insertSorted]
    split
    · exact List.cons_ne_nil _ _
    · exact List.cons_ne_nil _ _

theorem sortStrings_ne_nil {l : List Str} (h : l ≠ []) :
    sortStrings l ≠ [] := by
  cases l with
  | nil => exact absurd rfl h
  | cons x t => exact insertSorted_ne_nil x (sortStrings t)

theorem mem_insertSorted {e x : Str} {l : List Str}
    (h : e ∈ insertSorted x l) : e = x ∨ e ∈ l := by
  induction l with
  | nil =>
    rcases List.mem_cons.mp h with h' | h'
    · exact Or.inl h'
    · cases h'
  | cons y t ih =>
    rw [insertSorted] at h
    split at h
    · rcases List.mem_cons.mp h with h' | h'
      · exact Or.inl h'
      · exact Or.inr h'
    · rcases List.mem_cons.mp h with h' | h'
      · exact Or.inr (h' ▸ List.mem_cons_self y t)
      · rcases ih h' with h'' | h''
        · exact Or.inl h''
        · exact Or.inr (List.mem_cons_of_mem y h'')

theorem mem_sortStrings {e : Str} : ∀ {l : List Str},
    e ∈ sortStrings l → e ∈ l := by
  intro l
  induction l with
  | nil => intro h; cases h
  | cons x t ih =>
    intro h
    rcases mem_insertSorted h with h' | h'
    · exact h' ▸ List.mem_cons_self x t
    · exact List.mem_cons_of_mem x (ih h')

/-- Counterexample to claim C8 as stated: the seed flattens the
participant email list with a `:` separator, so for a fixed conversation
id (`"c"` = [99]) and a fixed stored salt, the one-participant set
with email `"x:y"` ([120,58,121]) and the two-participant set with
emails `"x"`, `"y"` produce the identical seed `"c:x:y"` and hence the
identical conversation key, although the participant sets differ. -/
theorem C8_key_separation_counterexample :
    deriveConversationKey IdealSodium
      (PrismaDB.mk [([99], Conversation.mk [Participant.mk [120, 58, 121]])]
        [([99], IdealSodium.to_base64 (List.replicate 32 0))]) [99] [97] [1] =
      .ok (IdealSodium.generichash 32 ([99, 58, 120, 58, 121] ++
          IdealSodium.to_base64 (List.replicate 32 0)),
        PrismaDB.mk [([99], Conversation.mk [Participant.mk [120, 58, 121]])]
          [([99], IdealSodium.to_base64 (List.replicate 32 0))]) ∧
    deriveConversationKey IdealSodium
      (PrismaDB.mk [([99], Conversation.mk [Participant.mk [120], Participant.mk [121]])]
        [([99], IdealSodium.to_base64 (List.replicate 32 0))]) [99] [97] [1] =
      .ok (IdealSodium.generichash 32 ([99, 58, 120, 58, 121] ++
          IdealSodium.to_base64 (List.replicate 32 0)),
        PrismaDB.mk [([99], Conversation.mk [Participant.mk [120], Participant.mk [121]])]
          [([99], IdealSodium.to_base64 (List.replicate 32 0))]) ∧
    (Conversation.mk [Participant.mk [120, 58, 121]]).participants ≠
      (Conversation.mk [Participant.mk [120], Participant.mk [121]]).participants :=
  ⟨by rfl, by rfl, by decide⟩

/-- Claim C8 as amended (key separation under Protocol B): provided both
conversations have a non-empty participant list and no participant email
contains the `:` separator (code unit 58), participant lists with
different sorted email sequences yield different derived keys for the
same conversation id and salt; and for a fixed participant list,
different salts yield different keys.  The first two conjuncts confirm
that the compared hashes are exactly the keys `deriveConversationKey`
returns. -/
theorem C8_key_separation_amended (S : SodiumModel)
    (db₁ db₂ : PrismaDB) (cid u₁ u₂ : Str) (f₁ f₂ : Bytes)
    (conv₁ conv₂ : Conversation) (sb s₁ s₂ : Bytes)
    (hconv₁ : dbLookup db₁.conversations cid = some conv₁)
    (hconv₂ : dbLookup db₂.conversations cid = some conv₂)
    (hsalt₁ : dbLookup db₁.conversationSalts cid = some (S.to_base64 sb))
    (hsalt₂ : dbLookup db₂.conversationSalts cid = some (S.to_base64 sb))
    (hp₁ : conv₁.participants ≠ [])
    (hp₂ : conv₂.participants ≠ [])
    (hcf₁ : ∀ e ∈ conv₁.participants.map (fun p => p.email), (58 : Nat) ∉ e)
    (hcf₂ : ∀ e ∈ conv₂.participants.map (fun p => p.email), (58 : Nat) ∉ e)
    (hdiff : sortStrings (conv₁.participants.map (fun p => p.email)) ≠
      sortStrings (conv₂.participants.map (fun p => p.email)))
    (hs : s₁ ≠ s₂) :
    deriveConversationKey S db₁ cid u₁ f₁ =
      .ok (S.generichash 32 ((cid ++ 58 :: joinColon (sortStrings
        (conv₁.participants.map (fun p => p.email)))) ++ S.to_base64 sb),
        db₁) ∧
    deriveConversationKey S db₂ cid u₂ f₂ =
      .ok (S.generichash 32 ((cid ++ 58 :: joinColon (sortStrings
        (conv₂.participants.map (fun p => p.email)))) ++ S.to_base64 sb),
        db₂) ∧
    S.generichash 32 ((cid ++ 58 :: joinColon (sortStrings
        (conv₁.participants.map (fun p => p.email)))) ++ S.to_base64 sb) ≠
      S.generichash 32 ((cid ++ 58 :: joinColon (sortStrings
        (conv₂.participants.map (fun p => p.email)))) ++ S.to_base64 sb) ∧
    S.generichash 32 ((cid ++ 58 :: joinColon (sortStrings
        (conv₁.participants.map (fun p => p.email)))) ++ S.to_base64 s₁) ≠
      S.generichash 32 ((cid ++ 58 :: joinColon (sortStrings
        (conv₁.participants.map (fun p => p.email)))) ++ S.to_base64 s₂) := by
  refine ⟨?_, ?_, ?_, ?_⟩
  · rw [deriveConversationKey_eq S db₁ cid u₁ f₁ conv₁ hconv₁,
      getConversationSalt_stored S db₁.conversationSalts db₁.conversationSalts
        cid f₁ (S.to_base64 sb) sb hsalt₁ (S.b64_roundtrip sb),
      exceptOkBind]
  · rw [deriveConversationKey_eq S db₂ cid u₂ f₂ conv₂ hconv₂,
      getConversationSalt_stored S db₂.conversationSalts db₂.conversationSalts
        cid f₂ (S.to_base64 sb) sb hsalt₂ (S.b64_roundtrip sb),
      exceptOkBind]
  · intro h
    have h₁ := S.generichash_inj _ _ h
    have h₂ := List.append_cancel_right h₁
    have h₃ := List.tail_eq_of_cons_eq (List.append_cancel_left h₂)
    have hmap₁ : conv₁.participants.map (fun p => p.email) ≠ [] := by
      intro hm
      exact hp₁ (List.map_eq_nil_iff.mp hm)
    have hmap₂ : conv₂.participants.map (fun p => p.email) ≠ [] := by
      intro hm
      exact hp₂ (List.map_eq_nil_iff.mp hm)
    exact hdiff (joinColon_inj _ _ (sortStrings_ne_nil hmap₁)
      (sortStrings_ne_nil hmap₂)
      (fun e he => hcf₁ e (mem_sortStrings he))
      (fun e he => hcf₂ e (mem_sortStrings he)) h₃)
  · intro h
    have h₁ := S.generichash_inj _ _ h
    have h₂ := List.append_cancel_left h₁
    exact hs (to_base64_inj S h₂)

/-- Witness for the amended C8 at the concrete model and concrete inputs
(participants `"a"` vs `"b"`, salts of zeros vs ones). -/
theorem C8_key_separation_amended_witness :
    deriveConversationKey IdealSodium
      (PrismaDB.mk [([99], Conversation.mk [Participant.mk [97]])]
        [([99], IdealSodium.to_base64 (List.replicate 32 0))]) [99] [97] [1] =
      .ok (IdealSodium.generichash 32 (([99] ++ 58 :: joinColon (sortStrings
        ((Conversation.mk [Participant.mk [97]]).participants.map
          (fun p => p.email)))) ++ IdealSodium.to_base64 (List.replicate 32 0)),
        PrismaDB.mk [([99], Conversation.mk [Participant.mk [97]])]
          [([99], IdealSodium.to_base64 (List.replicate 32 0))]) ∧
    deriveConversationKey IdealSodium
      (PrismaDB.mk [([99], Conversation.mk [Participant.mk [98]])]
        [([99], IdealSodium.to_base64 (List.replicate 32 0))]) [99] [98] [2] =
      .ok (IdealSodium.generichash 32 (([99] ++ 58 :: joinColon (sortStrings
        ((Conversation.mk [Participant.mk [98]]).participants.map
          (fun p => p.email)))) ++ IdealSodium.to_base64 (List.replicate 32 0)),
        PrismaDB.mk [([99], Conversation.mk [Participant.mk [98]])]
          [([99], IdealSodium.to_base64 (List.replicate 32 0))]) ∧
    IdealSodium.generichash 32 (([99] ++ 58 :: joinColon (sortStrings
        ((Conversation.mk [Participant.mk [97]]).participants.map
          (fun p => p.email)))) ++ IdealSodium.to_base64 (List.replicate 32 0)) ≠
      IdealSodium.generichash 32 (([99] ++ 58 :: joinColon (sortStrings
        ((Conversation.mk [Participant.mk [98]]).participants.map
          (fun p => p.email)))) ++ IdealSodium.to_base64 (List.replicate 32 0)) ∧
    IdealSodium.generichash 32 (([99] ++ 58 :: joinColon (sortStrings
        ((Conversation.mk [Participant.mk [97]]).participants.map
          (fun p => p.email)))) ++ IdealSodium.to_base64 (List.replicate 32 0)) ≠
      IdealSodium.generichash 32 (([99] ++ 58 :: joinColon (sortStrings
        ((Conversation.mk [Participant.mk [97]]).participants.map
          (fun p => p.email)))) ++ IdealSodium.to_base64 (List.replicate 32 1)) :=
  C8_key_separation_amended IdealSodium
    (PrismaDB.mk [([99], Conversation.mk [Participant.mk [97]])]
      [([99], IdealSodium.to_base64 (List.replicate 32 0))])
    (PrismaDB.mk [([99], Conversation.mk [Participant.mk [98]])]
      [([99], IdealSodium.to_base64 (List.replicate 32 0))])
    [99] [97] [98] [1] [2]
    (Conversation.mk [Participant.mk [97]])
    (Conversation.mk [Participant.mk [98]])
    (List.replicate 32 0) (List.replicate 32 0) (List.replicate 32 1)
    (by decide) (by decide) (by decide) (by decide) (by decide) (by decide)
    (by decide) (by decide) (by decide) (by decide)

/-- Claim C10 (secure-storage retrieval never throws, collapsing every
failure cause to null): for both storage implementations,
`retrievePrivateKey` returns `none` when no blob is stored, returns
`none` when the stored blob was sealed under a different password, and
returns `none` when the stored blob is not decodable - always the same
`none`, so a caller cannot distinguish an absent key from a failed
decryption through the return value.  The store-equation conjuncts pin
down the sealed blobs the wrong-password conjuncts reopen. -/
theorem C10_secure_storage_null_collapse (S : SodiumModel)
    (kb salt iv saltF : Bytes) (p₁ p₂ s : Str)
    (hsalt : salt.length = 32) (hiv : iv.length = 12)
    (hsaltF : saltF.length = 32) (hp : p₂ ≠ p₁)
    (hbad : S.from_base64 s = none) :
    WebCryptoSecureStorage.retrievePrivateKey S none p₁ = none ∧
    WebCryptoSecureStorage.storePrivateKey S (S.to_base64 kb) p₁ salt iv =
      .ok (S.to_base64 (salt ++ iv ++
        S.secretbox_easy kb iv (S.pwhash 32 p₁ salt)), S.to_base64 salt) ∧
    WebCryptoSecureStorage.retrievePrivateKey S
      (some (S.to_base64 (salt ++ iv ++
        S.secretbox_easy kb iv (S.pwhash 32 p₁ salt)))) p₂ = none ∧
    WebCryptoSecureStorage.retrievePrivateKey S (some s) p₁ = none ∧
    FallbackSecureStorage.retrievePrivateKey S none p₁ = none ∧
    FallbackSecureStorage.storePrivateKey S (S.to_base64 kb) p₁ saltF =
      .ok (S.to_base64 (saltF ++
        S.secretbox_easy kb saltF (S.pwhash 32 p₁ saltF))) ∧
    FallbackSecureStorage.retrievePrivateKey S
      (some (S.to_base64 (saltF ++
        S.secretbox_easy kb saltF (S.pwhash 32 p₁ saltF)))) p₂ = none ∧
    FallbackSecureStorage.retrievePrivateKey S (some s) p₁ = none := by
  have hkne : ∀ saltX : Bytes, S.pwhash 32 p₂ saltX ≠ S.pwhash 32 p₁ saltX :=
    fun saltX h => hp (S.pwhash_inj _ _ _ _ h).1
  refine ⟨rfl, ?_, ?_, ?_, rfl, ?_, ?_, ?_⟩
  · rw [WebCryptoSecureStorage.storePrivateKey, from_base64E_to_base64]
    rfl
  · have htake : (salt ++ (iv ++
        S.secretbox_easy kb iv (S.pwhash 32 p₁ salt))).take 32 = salt :=
      List.take_left' hsalt
    have hdrop : (salt ++ (iv ++
        S.secretbox_easy kb iv (S.pwhash 32 p₁ salt))).drop 32 =
        iv ++ S.secretbox_easy kb iv (S.pwhash 32 p₁ salt) :=
      List.drop_left' hsalt
    have hdrop44 : (salt ++ iv ++
        S.secretbox_easy kb iv (S.pwhash 32 p₁ salt)).drop 44 =
        S.secretbox_easy kb iv (S.pwhash 32 p₁ salt) :=
      List.drop_left' (by rw [List.length_append, hsalt, hiv])
    have hinner : (from_base64E S (S.to_base64 (salt ++ iv ++
        S.secretbox_easy kb iv (S.pwhash 32 p₁ salt))) >>= fun combined =>
        openE S (combined.drop 44) ((combined.drop 32).take 12)
          (S.pwhash 32 p₂ (combined.take 32)) >>= fun decrypted =>
        (pure (S.to_base64 decrypted) : Except CryptoError Str)) =
        .error .decryptionFailed := by
      rw [from_base64E_to_base64, okBind, List.append_assoc, htake, hdrop,
        List.take_left' hiv, ← List.append_assoc, hdrop44]
      rw [show openE S (S.secretbox_easy kb iv (S.pwhash 32 p₁ salt)) iv
          (S.pwhash 32 p₂ salt) = .error .decryptionFailed by
        unfold openE
        rw [secretbox_open_wrong_key S (hkne salt)]]
      rfl
    show (match (from_base64E S (S.to_base64 (salt ++ iv ++
        S.secretbox_easy kb iv (S.pwhash 32 p₁ salt))) >>= fun combined =>
        openE S (combined.drop 44) ((combined.drop 32).take 12)
          (S.pwhash 32 p₂ (combined.take 32)) >>= fun decrypted =>
        (pure (S.to_base64 decrypted) : Except CryptoError Str)) with
      | .ok r => some r
      | .error _ => none) = none
    rw [hinner]
  · have hinner : (from_base64E S s >>= fun combined =>
        openE S (combined.drop 44) ((combined.drop 32).take 12)
          (S.pwhash 32 p₁ (combined.take 32)) >>= fun decrypted =>
        (pure (S.to_base64 decrypted) : Except CryptoError Str)) =
        .error .badEncoding := by
      rw [show from_base64E S s = .error .badEncoding by rw [from_base64E, hbad]]
      rfl
    show (match (from_base64E S s >>= fun combined =>
        openE S (combined.drop 44) ((combined.drop 32).take 12)
          (S.pwhash 32 p₁ (combined.take 32)) >>= fun decrypted =>
        (pure (S.to_base64 decrypted) : Except CryptoError Str)) with
      | .ok r => some r
      | .error _ => none) = none
    rw [hinner]
  · rw [FallbackSecureStorage.storePrivateKey, from_base64E_to_base64]
    rfl
  · have htake : (saltF ++
        S.secretbox_easy kb saltF (S.pwhash 32 p₁ saltF)).take 32 = saltF :=
      List.take_left' hsaltF
    have hdrop : (saltF ++
        S.secretbox_easy kb saltF (S.pwhash 32 p₁ saltF)).drop 32 =
        S.secretbox_easy kb saltF (S.pwhash 32 p₁ saltF) :=
      List.drop_left' hsaltF
    have hinner : (from_base64E S (S.to_base64 (saltF ++
        S.secretbox_easy kb saltF (S.pwhash 32 p₁ saltF))) >>= fun combined =>
        openE S (combined.drop 32) (combined.take 32)
          (S.pwhash 32 p₂ (combined.take 32)) >>= fun decrypted =>
        (pure (S.to_base64 decrypted) : Except CryptoError Str)) =
        .error .decryptionFailed := by
      rw [from_base64E_to_base64, okBind, htake, hdrop]
      rw [show openE S (S.secretbox_easy kb saltF (S.pwhash 32 p₁ saltF)) saltF
          (S.pwhash 32 p₂ saltF) = .error .decryptionFailed by
        unfold openE
        rw [secretbox_open_wrong_key S (hkne saltF)]]
      rfl
    show (match (from_base64E S (S.to_base64 (saltF ++
        S.secretbox_easy kb saltF (S.pwhash 32 p₁ saltF))) >>= fun combined =>
        openE S (combined.drop 32) (combined.take 32)
          (S.pwhash 32 p₂ (combined.take 32)) >>= fun decrypted =>
        (pure (S.to_base64 decrypted) : Except CryptoError Str)) with
      | .ok r => some r
      | .error _ => none) = none
    rw [hinner]
  · have hinner : (from_base64E S s >>= fun combined =>
        openE S (combined.drop 32) (combined.take 32)
          (S.pwhash 32 p₁ (combined.take 32)) >>= fun decrypted =>
        (pure (S.to_base64 decrypted) : Except CryptoError Str)) =
        .error .badEncoding := by
      rw [show from_base64E S s = .error .badEncoding by rw [from_base64E, hbad]]
      rfl
    show (match (from_base64E S s >>= fun combined =>
        openE S (combined.drop 32) (combined.take 32)
          (S.pwhash 32 p₁ (combined.take 32)) >>= fun decrypted =>
        (pure (S.to_base64 decrypted) : Except CryptoError Str)) with
      | .ok r => some r
      | .error _ => none) = none
    rw [hinner]

/-- Witness for C10 at the concrete model and concrete inputs (the
undecodable blob `[1]` is rejected by the concrete base64 decoder). -/
theorem C10_secure_storage_null_collapse_witness :
    WebCryptoSecureStorage.retrievePrivateKey IdealSodium none [1] = none ∧
    WebCryptoSecureStorage.storePrivateKey IdealSodium
      (IdealSodium.to_base64 [5]) [1] (List.replicate 32 0)
      (List.replicate 12 0) =
      .ok (IdealSodium.to_base64 (List.replicate 32 0 ++ List.replicate 12 0 ++
        IdealSodium.secretbox_easy [5] (List.replicate 12 0)
          (IdealSodium.pwhash 32 [1] (List.replicate 32 0))),
        IdealSodium.to_base64 (List.replicate 32 0)) ∧
    WebCryptoSecureStorage.retrievePrivateKey IdealSodium
      (some (IdealSodium.to_base64 (List.replicate 32 0 ++ List.replicate 12 0 ++
        IdealSodium.secretbox_easy [5] (List.replicate 12 0)
          (IdealSodium.pwhash 32 [1] (List.replicate 32 0))))) [2] = none ∧
    WebCryptoSecureStorage.retrievePrivateKey IdealSodium (some [1]) [1] =
      none ∧
    FallbackSecureStorage.retrievePrivateKey IdealSodium none [1] = none ∧
    FallbackSecureStorage.storePrivateKey IdealSodium
      (IdealSodium.to_base64 [5]) [1] (List.replicate 32 0) =
      .ok (IdealSodium.to_base64 (List.replicate 32 0 ++
        IdealSodium.secretbox_easy [5] (List.replicate 32 0)
          (IdealSodium.pwhash 32 [1] (List.replicate 32 0)))) ∧
    FallbackSecureStorage.retrievePrivateKey IdealSodium
      (some (IdealSodium.to_base64 (List.replicate 32 0 ++
        IdealSodium.secretbox_easy [5] (List.replicate 32 0)
          (IdealSodium.pwhash 32 [1] (List.replicate 32 0))))) [2] = none ∧
    FallbackSecureStorage.retrievePrivateKey IdealSodium (some [1]) [1] =
      none :=
  C10_secure_storage_null_collapse IdealSodium [5] (List.replicate 32 0)
    (List.replicate 12 0) (List.replicate 32 0) [1] [2] [1]
    (by decide) (by decide) (by decide) (by decide) (by rfl)
